import Mathlib

/-!
# Heron Wellnest Activities — verification of the spec against the code

Shallow embedding of the business-logic services of the repository
(`PetsService`, `FoodService`, `QuestsService`, `MoodCheckInService`,
`GratitudeJarService` and their repositories) and proofs of the frozen
claims about them.

Modelling conventions:
* TypeScript numbers holding integral stats are modelled as `Int`
  (JS arithmetic on integers below 2^53 is exact).
* UUID string columns are modelled as `String`; where the database
  compares or generates keys we model identifiers as `Nat` so that
  freshness of generated keys is expressible.
* Timestamps are epoch milliseconds (`Int` or `Nat`).  A calendar day
  (`getFullYear/getMonth/getDate` triple, used by `isToday` and the
  Postgres `Between` window of `getCheckInForToday`) is modelled as the
  day index `t / 86400000` for a fixed time zone.
* The relational store is a record of lists of rows; `findOne` is a
  first-match lookup, `save` rewrites the row with the matching primary
  key, `delete` filters it out.
-/

namespace Heron

/-- `age_stage` enum column of the `pets` table. -/
inductive AgeStage where
  | infant | teen | adult
deriving DecidableEq, Repr

/-- `pet_mood` enum column of the `pets` table. -/
inductive Mood where
  | excited | sad | puppy_eyes | frustrated | sleepy
deriving DecidableEq, Repr

/-- status enum of the `user_quests` table. -/
inductive QuestStatus where
  | pending | complete | claimed | expired
deriving DecidableEq, Repr

/-! ## PetsService: leveling formulas -/

/-- `MAX_LEVEL` constant of `PetsService`. -/
def MAX_LEVEL : Nat := 50

/-- `COIN_LIMIT` constant of `PetsService` / `FoodService` / `QuestsService`. -/
def COIN_LIMIT : Int := 9999

/-- Gauge limit (`ENERGY_LIMIT` = `HUNGER_LIMIT` = `CLEANLINESS_LIMIT` =
`HAPPINESS_LIMIT` = 100). -/
def GAUGE_LIMIT : Int := 100

/-- One loop step of `calculateRequiredXP`: `Math.floor(BASE_EXP_PER_LEVEL * i * 1.5)`
with `BASE_EXP_PER_LEVEL = 100`.  `1.5` is exact in binary floating point and
`100 * i * 1.5` is computed exactly for every level index that occurs, so the
floored double equals `⌊100 * i * 3 / 2⌋` over the integers. -/
def requiredXPStep (i : Nat) : Nat := 100 * i * 3 / 2

/-- `PetsService.calculateRequiredXP`: total XP required to reach `level`;
`0` for `level ≤ 1`, otherwise the sum of `requiredXPStep i` for
`i = 1, …, level - 1` accumulated by the `for` loop. -/
def calculateRequiredXP (level : Nat) : Nat :=
  if level ≤ 1 then 0
  else (List.range' 1 (level - 1)).foldl (fun acc i => acc + requiredXPStep i) 0

/-- Return value of `calculateLevelFromXP`. -/
structure LevelInfo where
  level : Nat
  age_stage : AgeStage
deriving DecidableEq, Repr

/-- The `for (let i = 2; i <= MAX_LEVEL; i++)` search loop of
`calculateLevelFromXP`: raise `level` to `i` while `experience` meets the
requirement, `break` (returning the level reached so far) otherwise.  The
first argument is fuel bounding the remaining iterations; the loop itself
runs `i` from 2 to `MAX_LEVEL`, so `MAX_LEVEL + 1 - i` units suffice. -/
def levelSearch (experience : Int) : Nat → Nat → Nat → Nat
  | 0, _, level => level
  | fuel + 1, i, level =>
    if i ≤ MAX_LEVEL then
      if (calculateRequiredXP i : Int) ≤ experience then
        levelSearch experience fuel (i + 1) i
      else level
    else level

/-- `PetsService.calculateLevelFromXP`: current level (search starting from
`i = 2`, `level = 1`) and the age stage derived from the level bands. -/
def calculateLevelFromXP (experience : Int) : LevelInfo :=
  let level := levelSearch experience (MAX_LEVEL + 1 - 2) 2 1
  { level := level
    age_stage :=
      if level ≤ 15 then AgeStage.infant
      else if level ≤ 35 then AgeStage.teen
      else AgeStage.adult }

/-! ### Leveling lemmas -/

theorem requiredXPStep_eq (i : Nat) : requiredXPStep i = 150 * i := by
  unfold requiredXPStep; omega

theorem calculateRequiredXP_succ (n : Nat) (h : 1 ≤ n) :
    calculateRequiredXP (n + 1) = calculateRequiredXP n + 150 * n := by
  unfold calculateRequiredXP
  rcases Nat.lt_or_ge n 2 with h2 | h2
  · interval_cases n
    simp [List.range', requiredXPStep_eq]
  · have hn1 : ¬ n + 1 ≤ 1 := by omega
    have hn2 : ¬ n ≤ 1 := by omega
    simp only [hn1, hn2, if_false]
    have hrange : List.range' 1 (n + 1 - 1) = List.range' 1 (n - 1) ++ [n] := by
      have h1 : n + 1 - 1 = (n - 1) + 1 := by omega
      rw [h1, List.range'_concat]
      have h3 : 1 + 1 * (n - 1) = n := by omega
      rw [h3]
    rw [hrange, List.foldl_append]
    simp [requiredXPStep_eq]

theorem calculateRequiredXP_one : calculateRequiredXP 1 = 0 := by
  simp [calculateRequiredXP]

theorem calculateRequiredXP_le_succ (n : Nat) :
    calculateRequiredXP n ≤ calculateRequiredXP (n + 1) := by
  rcases Nat.lt_or_ge n 1 with h | h
  · interval_cases n
    simp [calculateRequiredXP]
  · rw [calculateRequiredXP_succ n h]; omega

theorem calculateRequiredXP_mono {i j : Nat} (h : i ≤ j) :
    calculateRequiredXP i ≤ calculateRequiredXP j := by
  induction j with
  | zero =>
    have hi : i = 0 := by omega
    subst hi; exact le_rfl
  | succ k ih =>
    rcases Nat.lt_or_ge i (k + 1) with hlt | hge
    · exact le_trans (ih (by omega)) (calculateRequiredXP_le_succ k)
    · have : i = k + 1 := by omega
      subst this; exact le_rfl

/-- Invariant-carrying specification of the `calculateLevelFromXP` search
loop: starting from a candidate `level` that already meets its requirement and
dominates every satisfying level below `i`, the loop returns the greatest
level `≤ MAX_LEVEL` whose requirement is met. -/
theorem levelSearch_spec (e : Int) :
    ∀ n i level, MAX_LEVEL + 1 - i = n →
    2 ≤ i → level < i → level ≤ MAX_LEVEL →
    (calculateRequiredXP level : Int) ≤ e →
    (∀ L, L < i → (calculateRequiredXP L : Int) ≤ e → L ≤ level) →
    level ≤ levelSearch e n i level ∧
    levelSearch e n i level ≤ MAX_LEVEL ∧
    (calculateRequiredXP (levelSearch e n i level) : Int) ≤ e ∧
    (∀ L, L ≤ MAX_LEVEL → (calculateRequiredXP L : Int) ≤ e →
      L ≤ levelSearch e n i level) := by
  intro n
  induction n with
  | zero =>
    intro i level hn h2 hlt hle hsat hmax
    refine ⟨le_rfl, hle, hsat, fun L hL50 hLsat => ?_⟩
    exact hmax L (by omega) hLsat
  | succ m ih =>
    intro i level hn h2 hlt hle hsat hmax
    rcases Nat.lt_or_ge MAX_LEVEL i with hgt | hile
    · rw [levelSearch, if_neg (by omega)]
      exact ⟨le_rfl, hle, hsat, fun L hL50 hLsat => hmax L (by omega) hLsat⟩
    · rw [levelSearch, if_pos hile]
      by_cases hreq : (calculateRequiredXP i : Int) ≤ e
      · rw [if_pos hreq]
        exact (ih (i + 1) i (by omega) (by omega) (by omega) hile hreq
          (fun L hL hLsat => by omega)).imp (fun h => by omega) id
      · rw [if_neg hreq]
        refine ⟨le_rfl, hle, hsat, fun L hL50 hLsat => ?_⟩
        rcases Nat.lt_or_ge L i with hLlt | hLge
        · exact hmax L hLlt hLsat
        · exfalso
          apply hreq
          calc (calculateRequiredXP i : Int)
              ≤ (calculateRequiredXP L : Int) := by
                exact_mod_cast calculateRequiredXP_mono hLge
            _ ≤ e := hLsat

/-- **C1.** For every integer `experience ≥ 0`, `calculateLevelFromXP`
returns the largest level `L ∈ [1, 50]` such that `experience` is at least
the cumulative requirement `Σ_{i=1}^{L-1} ⌊100·i·1.5⌋` (level 1 requiring 0),
together with `age_stage` `infant` for levels 1–15, `teen` for 16–35 and
`adult` for 36–50. -/
theorem calculateLevelFromXP_gives_greatest_level (e : Int) (he : 0 ≤ e) :
    1 ≤ (calculateLevelFromXP e).level ∧
    (calculateLevelFromXP e).level ≤ 50 ∧
    (calculateRequiredXP (calculateLevelFromXP e).level : Int) ≤ e ∧
    (∀ L, 1 ≤ L → L ≤ 50 → (calculateRequiredXP L : Int) ≤ e →
      L ≤ (calculateLevelFromXP e).level) ∧
    (calculateLevelFromXP e).age_stage =
      (if (calculateLevelFromXP e).level ≤ 15 then AgeStage.infant
       else if (calculateLevelFromXP e).level ≤ 35 then AgeStage.teen
       else AgeStage.adult) := by
  have h1 : (calculateRequiredXP 1 : Int) ≤ e := by
    rw [calculateRequiredXP_one]; exact_mod_cast he
  have hspec := levelSearch_spec e (MAX_LEVEL + 1 - 2) 2 1 rfl (le_refl 2)
    (by omega) (by unfold MAX_LEVEL; omega) h1 (fun L hL _ => by omega)
  unfold calculateLevelFromXP
  refine ⟨hspec.1, hspec.2.1, hspec.2.2.1, fun L _ hL50 hLsat => ?_, rfl⟩
  exact hspec.2.2.2 L hL50 hLsat

/-- Witness for C1 at `experience = 400`: cumulative requirements are 0, 150
and 450 for levels 1, 2 and 3, so the computed level is 2. -/
theorem calculateLevelFromXP_gives_greatest_level_witness :
    (0 : Int) ≤ 400 ∧ (calculateLevelFromXP 400).level = 2 ∧
    1 ≤ (calculateLevelFromXP 400).level := by
  refine ⟨by decide, by decide, (calculateLevelFromXP_gives_greatest_level 400 (by decide)).1⟩

/-! ## Data model (rows of the relational store) -/

/-- Row of the `pets` table (`pets.model.ts`). -/
structure Pet where
  pet_id : String
  owner_id : String
  name : String
  species : String
  level : Nat
  experience : Int
  age_stage : AgeStage
  pet_mood : Mood
  pet_coin : Int
  pet_energy : Int
  pet_hunger : Int
  pet_cleanliness : Int
  pet_happiness : Int
  last_interaction_at : Int
  sleep_until : Option Int
deriving DecidableEq, Repr

/-- Row of the `quest_definitions` table (`questDefinitions.model.ts`), with
the `reward_type` column used by `claimQuest`. -/
structure QuestDefinition where
  quest_definition_id : String
  name : String
  reward_money : Int
  reward_experience : Int
  hunger_recovery : Int
  reward_food_id : Option String
  reward_type : String
  is_active : Bool
deriving DecidableEq, Repr

/-- `scope` enum column of the `daily_quests` table. -/
inductive QuestScope where
  | global | personalized
deriving DecidableEq, Repr

/-- Row of the `daily_quests` table (`dailyQuests.model.ts`); the
`quest_definition_id` relation is stored resolved, as the repositories always
load it (`relations: ["quest_definition_id"]`). -/
structure DailyQuest where
  daily_quest_id : String
  quest_definition_id : QuestDefinition
  scope : QuestScope
  target_user_id : Option String
  timestamp : Int
deriving DecidableEq, Repr

/-- Row of the `user_quests` table (`userQuests.model.ts`); the
`daily_quest_id` relation is stored resolved
(`relations: ["daily_quest_id", "daily_quest_id.quest_definition_id"]`). -/
structure UserQuest where
  user_quest_id : Nat
  owner_id : String
  daily_quest_id : DailyQuest
  expires_at : Option Int
  status : QuestStatus
  completed_at : Option Int
  created_at : Int
deriving DecidableEq, Repr

/-- Row of the `pet_food` table (`petFood.model.ts`). -/
structure PetFood where
  food_id : String
  food_name : String
  xp_gain : Int
  hunger_fill_amount : Int
  food_price : Int
deriving DecidableEq, Repr

/-- Row of the `food_inventory` table (`foodInventory.model.ts`); the
`food_id` relation is modelled by the referenced food's primary key. -/
structure FoodInventory where
  inventory_id : Nat
  owner_id : String
  food_id : String
  quantity : Int
deriving DecidableEq, Repr

/-- The relational store, together with primary-key allocators for the rows
the services create and a counter of `updatePetStats` writes (used to state
that an operation performs no write). -/
structure World where
  pets : List Pet
  userQuests : List UserQuest
  dailyQuests : List DailyQuest
  foods : List PetFood
  inventory : List FoodInventory
  nextUserQuestId : Nat
  nextInventoryId : Nat
  nextPetId : Nat
  writes : Nat
deriving Repr

/-- The typed application error (`AppError`), identified by its
machine-readable code; `SLEEP_NOT_COMPLETED` carries the reported remaining
minutes. -/
inductive AppErr where
  | PET_NOT_SLEEPING
  | SLEEP_NOT_COMPLETED (remainingMinutes : Int)
  | PET_ALREADY_SLEEPING
  | PET_SLEEPING
  | PET_NOT_FOUND
  | PET_EXISTS
  | INSUFFICIENT_ENERGY
  | UPDATE_FAILED
  | LEVEL_UPDATE_FAILED
  | FOOD_NOT_FOUND
  | FOOD_NOT_IN_INVENTORY
  | INSUFFICIENT_QUANTITY
  | QUEST_NOT_FOUND
  | QUEST_NOT_OWNED
  | QUEST_ALREADY_CLAIMED
  | QUEST_EXPIRED
  | QUEST_NOT_COMPLETE
  | QUEST_CLAIM_FAILED
  | CHECKIN_EXISTS
deriving DecidableEq, Repr

/-! ## Repository lookups (`findOne` takes the first matching row) -/

def findPetByOwner : List Pet → String → Option Pet
  | [], _ => none
  | p :: ps, o => if p.owner_id = o then some p else findPetByOwner ps o

def findPetById : List Pet → String → Option Pet
  | [], _ => none
  | p :: ps, i => if p.pet_id = i then some p else findPetById ps i

def findUserQuestById : List UserQuest → Nat → Option UserQuest
  | [], _ => none
  | q :: qs, i => if q.user_quest_id = i then some q else findUserQuestById qs i

def findFoodById : List PetFood → String → Option PetFood
  | [], _ => none
  | f :: fs, i => if f.food_id = i then some f else findFoodById fs i

def findInventoryByOwnerAndFood : List FoodInventory → String → String → Option FoodInventory
  | [], _, _ => none
  | r :: rs, o, f =>
    if r.owner_id = o ∧ r.food_id = f then some r
    else findInventoryByOwnerAndFood rs o f

def findInventoryById : List FoodInventory → Nat → Option FoodInventory
  | [], _ => none
  | r :: rs, i => if r.inventory_id = i then some r else findInventoryById rs i

/-! ## PetsRepository -/

/-- The `updates` argument of `PetsRepository.updatePetStats`: each key is
optional, a missing key leaves the column untouched (`Object.assign`). -/
structure PetStatsUpdate where
  pet_energy : Option Int := none
  pet_hunger : Option Int := none
  pet_cleanliness : Option Int := none
  pet_happiness : Option Int := none
  pet_mood : Option Mood := none
  pet_coin : Option Int := none
  experience : Option Int := none
  level : Option Nat := none
  age_stage : Option AgeStage := none
  last_interaction_at : Option Int := none
  sleep_until : Option (Option Int) := none
deriving Repr

/-- `Object.assign(pet, updates)`. -/
def applyPetUpdate (u : PetStatsUpdate) (p : Pet) : Pet :=
  { p with
    pet_energy := u.pet_energy.getD p.pet_energy
    pet_hunger := u.pet_hunger.getD p.pet_hunger
    pet_cleanliness := u.pet_cleanliness.getD p.pet_cleanliness
    pet_happiness := u.pet_happiness.getD p.pet_happiness
    pet_mood := u.pet_mood.getD p.pet_mood
    pet_coin := u.pet_coin.getD p.pet_coin
    experience := u.experience.getD p.experience
    level := u.level.getD p.level
    age_stage := u.age_stage.getD p.age_stage
    last_interaction_at := u.last_interaction_at.getD p.last_interaction_at
    sleep_until := u.sleep_until.getD p.sleep_until }

/-- `PetsRepository.updatePetStats`: fetch the pet by primary key, assign the
updates and save; `none` when the pet does not exist.  Every save increments
the write counter. -/
def updatePetStats (w : World) (pet_id : String) (u : PetStatsUpdate) :
    Option Pet × World :=
  match findPetById w.pets pet_id with
  | none => (none, w)
  | some p =>
    (some (applyPetUpdate u p),
     { w with
        pets := w.pets.map fun q => if q.pet_id = pet_id then applyPetUpdate u q else q
        writes := w.writes + 1 })

/-- `PetsRepository.createPet` with the column defaults of `pets.model.ts`
(coin 500, gauges 100, level 1, experience 0, infant, excited). -/
def createPetRepo (w : World) (owner_id name species : String) : Pet × World :=
  let p : Pet :=
    { pet_id := "pet-" ++ toString w.nextPetId
      owner_id := owner_id
      name := name
      species := species
      level := 1
      experience := 0
      age_stage := AgeStage.infant
      pet_mood := Mood.excited
      pet_coin := 500
      pet_energy := 100
      pet_hunger := 100
      pet_cleanliness := 100
      pet_happiness := 100
      last_interaction_at := 0
      sleep_until := none }
  (p, { w with pets := w.pets ++ [p], nextPetId := w.nextPetId + 1 })

/-- `PetsService.getPetByOwnerId`: return the owner's pet, creating a default
"Heron" lazily when absent. -/
def getPetByOwnerIdSvc (w : World) (owner_id : String) : Pet × World :=
  match findPetByOwner w.pets owner_id with
  | some p => (p, w)
  | none => createPetRepo w owner_id "Heron" "heron"

/-! ## PetsService actions -/

/-- `pet.sleep_until !== null && now < pet.sleep_until.getTime()`. -/
def isSleepingNow (now : Int) (p : Pet) : Bool :=
  match p.sleep_until with
  | none => false
  | some su => now < su

/-- `Math.ceil((sleep_until - now) / 1000 / 60)` for a positive millisecond
difference: the two floating-point divisions are exact or within 2⁻⁴⁰ of the
rational value at the magnitudes that occur, so the ceiling equals the
integer ceiling of `ms / 60000`. -/
def ceilRemainingMinutes (ms : Int) : Int := (ms + 59999) / 60000

/-- `PetsService.updatePetLevel`: recompute level and age stage from the
pet's experience and write them back only when one of them changed. -/
def updatePetLevel (w : World) (pet : Pet) : Option Pet × World :=
  let r := calculateLevelFromXP pet.experience
  if r.level = pet.level ∧ r.age_stage = pet.age_stage then (some pet, w)
  else updatePetStats w pet.pet_id { level := some r.level, age_stage := some r.age_stage }

/-- `PetsService.petThePet`. -/
def petThePet (w : World) (now : Int) (owner_id : String) : Except AppErr (Pet × World) :=
  let s := getPetByOwnerIdSvc w owner_id
  let pet := s.1
  match pet.sleep_until with
  | some su =>
    if now < su then Except.error AppErr.PET_SLEEPING
    else
      match updatePetStats s.2 pet.pet_id
        { pet_coin := some (min (pet.pet_coin + 1) COIN_LIMIT)
          pet_happiness := some (min (pet.pet_happiness + 1) GAUGE_LIMIT)
          pet_energy := some (max (pet.pet_energy - 1) 0)
          last_interaction_at := some now } with
      | (none, _) => Except.error AppErr.UPDATE_FAILED
      | (some p, w') => Except.ok (p, w')
  | none =>
      match updatePetStats s.2 pet.pet_id
        { pet_coin := some (min (pet.pet_coin + 1) COIN_LIMIT)
          pet_happiness := some (min (pet.pet_happiness + 1) GAUGE_LIMIT)
          pet_energy := some (max (pet.pet_energy - 1) 0)
          last_interaction_at := some now } with
      | (none, _) => Except.error AppErr.UPDATE_FAILED
      | (some p, w') => Except.ok (p, w')

/-- `PetsService.sleepPet`: refuse when already asleep, otherwise sleep for
one hour (3600000 ms) and become sleepy. -/
def sleepPet (w : World) (now : Int) (owner_id : String) : Except AppErr (Pet × World) :=
  let s := getPetByOwnerIdSvc w owner_id
  let pet := s.1
  if isSleepingNow now pet then
    Except.error AppErr.PET_ALREADY_SLEEPING
  else
    match updatePetStats s.2 pet.pet_id
      { sleep_until := some (some (now + 60 * 60 * 1000))
        pet_mood := some Mood.sleepy
        last_interaction_at := some now } with
    | (none, _) => Except.error AppErr.UPDATE_FAILED
    | (some p, w') => Except.ok (p, w')

/-- `PetsService.wakePet`. -/
def wakePet (w : World) (now : Int) (owner_id : String) : Except AppErr (Pet × World) :=
  let s := getPetByOwnerIdSvc w owner_id
  let pet := s.1
  match pet.sleep_until with
  | none => Except.error AppErr.PET_NOT_SLEEPING
  | some su =>
    if now < su then
      Except.error (AppErr.SLEEP_NOT_COMPLETED (ceilRemainingMinutes (su - now)))
    else
      match updatePetStats s.2 pet.pet_id
        { sleep_until := some none
          pet_energy := some GAUGE_LIMIT
          pet_coin := some (min (pet.pet_coin + 5) COIN_LIMIT)
          pet_hunger := some (max (pet.pet_hunger - 20) 0)
          pet_mood := some (if pet.pet_hunger ≤ 10 then Mood.sad else Mood.excited)
          pet_cleanliness := some (max (pet.pet_cleanliness - 10) 0)
          last_interaction_at := some now } with
      | (none, _) => Except.error AppErr.UPDATE_FAILED
      | (some p, w') => Except.ok (p, w')

/-- `PetsService.completeBathMinigame`. -/
def completeBathMinigame (w : World) (now : Int) (owner_id : String) :
    Except AppErr (Pet × World) :=
  let s := getPetByOwnerIdSvc w owner_id
  let pet := s.1
  if isSleepingNow now pet then
    Except.error AppErr.PET_SLEEPING
  else if pet.pet_energy < 10 then
    Except.error AppErr.INSUFFICIENT_ENERGY
  else
    match updatePetStats s.2 pet.pet_id
      { pet_cleanliness := some GAUGE_LIMIT
        pet_coin := some (min (pet.pet_coin + 8) COIN_LIMIT)
        pet_energy := some (max (pet.pet_energy - 10) 0)
        last_interaction_at := some now } with
    | (none, _) => Except.error AppErr.UPDATE_FAILED
    | (some p, w') => Except.ok (p, w')

/-- `PetsService.completeBounceMinigame`. -/
def completeBounceMinigame (w : World) (now : Int) (owner_id : String) :
    Except AppErr (Pet × World) :=
  let s := getPetByOwnerIdSvc w owner_id
  let pet := s.1
  if isSleepingNow now pet then
    Except.error AppErr.PET_SLEEPING
  else if pet.pet_energy < 15 then
    Except.error AppErr.INSUFFICIENT_ENERGY
  else
    match updatePetStats s.2 pet.pet_id
      { pet_coin := some (min (pet.pet_coin + 10) COIN_LIMIT)
        pet_happiness := some (min (pet.pet_happiness + 15) GAUGE_LIMIT)
        pet_energy := some (max (pet.pet_energy - 15) 0)
        pet_cleanliness := some (max (pet.pet_cleanliness - 5) 0)
        last_interaction_at := some now } with
    | (none, _) => Except.error AppErr.UPDATE_FAILED
    | (some p, w') => Except.ok (p, w')

/-! ## C2: `wakePet` -/

/-- Unfolding lemma: `updatePetStats` on a pet that is stored behaves as a
single read-modify-write of that pet. -/
theorem updatePetStats_found (w : World) (id : String) (u : PetStatsUpdate) (p : Pet)
    (hid : findPetById w.pets id = some p) :
    updatePetStats w id u =
      (some (applyPetUpdate u p),
       { w with
          pets := w.pets.map fun q => if q.pet_id = id then applyPetUpdate u q else q
          writes := w.writes + 1 }) := by
  simp [updatePetStats, hid]

/-- A pet asleep until t = 1000 whose hunger is 25: waking decrements hunger
to 5. -/
def wakeExamplePet : Pet :=
  { pet_id := "p1", owner_id := "o1", name := "Heron", species := "heron"
    level := 1, experience := 0, age_stage := AgeStage.infant
    pet_mood := Mood.sleepy, pet_coin := 0, pet_energy := 0, pet_hunger := 25
    pet_cleanliness := 50, pet_happiness := 50, last_interaction_at := 0
    sleep_until := some 1000 }

def wakeExampleWorld : World :=
  { pets := [wakeExamplePet], userQuests := [], dailyQuests := [], foods := []
    inventory := [], nextUserQuestId := 0, nextInventoryId := 0, nextPetId := 1
    writes := 0 }

/-- Post-state observed when waking `wakeExamplePet` at its exact
`sleep_until` instant. -/
def wakeCounterexampleResult : Option (Int × Mood) :=
  match wakePet wakeExampleWorld 1000 "o1" with
  | Except.ok (p, _) => some (p.pet_hunger, p.pet_mood)
  | Except.error _ => none

/-- **C2 counterexample.** Waking a pet with hunger 25 at exactly
`sleep_until` succeeds and leaves post-decrement hunger 5 ≤ 10, yet the mood
written is `excited`, not `sad`: the code branches on the hunger value
*before* the −20 decrement (`pet.pet_hunger <= 10`), not on the resulting
hunger as the claim states. -/
theorem wakePet_postdecrement_mood_counterexample :
    wakeCounterexampleResult = some (5, Mood.excited) ∧ Mood.excited ≠ Mood.sad := by
  exact ⟨rfl, by decide⟩

/-- **C2 (amended).** `wakePet` fails with `PET_NOT_SLEEPING` when
`sleep_until` is null; fails with `SLEEP_NOT_COMPLETED` reporting a positive
number of remaining minutes when now < `sleep_until`; succeeds when now
equals (or passes) `sleep_until`, and then clears `sleep_until`, sets energy
to 100, adds 5 coins capped at 9999, decreases hunger by 20 floored at 0,
decreases cleanliness by 10 floored at 0, and sets mood to `sad` if the
**pre-decrement** hunger is ≤ 10 and to `excited` otherwise. -/
theorem wakePet_contract (w : World) (now : Int) (owner : String) (p : Pet)
    (hfind : findPetByOwner w.pets owner = some p)
    (hid : findPetById w.pets p.pet_id = some p) :
    (p.sleep_until = none → wakePet w now owner = Except.error AppErr.PET_NOT_SLEEPING) ∧
    (∀ su, p.sleep_until = some su → now < su →
      wakePet w now owner =
        Except.error (AppErr.SLEEP_NOT_COMPLETED (ceilRemainingMinutes (su - now))) ∧
      0 < ceilRemainingMinutes (su - now)) ∧
    (∀ su, p.sleep_until = some su → su ≤ now →
      ∃ p' w', wakePet w now owner = Except.ok (p', w') ∧
        p'.sleep_until = none ∧
        p'.pet_energy = 100 ∧
        p'.pet_coin = min (p.pet_coin + 5) 9999 ∧
        p'.pet_hunger = max (p.pet_hunger - 20) 0 ∧
        p'.pet_cleanliness = max (p.pet_cleanliness - 10) 0 ∧
        p'.pet_mood = (if p.pet_hunger ≤ 10 then Mood.sad else Mood.excited)) := by
  refine ⟨?_, ?_, ?_⟩
  · intro hnone
    simp [wakePet, getPetByOwnerIdSvc, hfind, hnone]
  · intro su hsu hlt
    refine ⟨?_, ?_⟩
    · simp [wakePet, getPetByOwnerIdSvc, hfind, hsu, hlt]
    · unfold ceilRemainingMinutes
      omega
  · intro su hsu hge
    have hnotlt : ¬ now < su := by omega
    have hs : getPetByOwnerIdSvc w owner = (p, w) := by
      simp [getPetByOwnerIdSvc, hfind]
    have hup := updatePetStats_found w p.pet_id
      { sleep_until := some none
        pet_energy := some GAUGE_LIMIT
        pet_coin := some (min (p.pet_coin + 5) COIN_LIMIT)
        pet_hunger := some (max (p.pet_hunger - 20) 0)
        pet_mood := some (if p.pet_hunger ≤ 10 then Mood.sad else Mood.excited)
        pet_cleanliness := some (max (p.pet_cleanliness - 10) 0)
        last_interaction_at := some now } p hid
    simp only [wakePet, hs, hsu, hnotlt, if_false, hup]
    exact ⟨_, _, rfl, by simp [applyPetUpdate],
      by simp [applyPetUpdate, GAUGE_LIMIT],
      by simp [applyPetUpdate, COIN_LIMIT],
      by simp [applyPetUpdate],
      by simp [applyPetUpdate],
      by simp [applyPetUpdate]⟩

/-- Witness for C2 (amended) at the concrete world, waking at exactly the
`sleep_until` instant. -/
theorem wakePet_contract_witness :
    ∃ p' w', wakePet wakeExampleWorld 1000 "o1" = Except.ok (p', w') ∧
      p'.sleep_until = none ∧
      p'.pet_energy = 100 ∧
      p'.pet_coin = min (wakeExamplePet.pet_coin + 5) 9999 ∧
      p'.pet_hunger = max (wakeExamplePet.pet_hunger - 20) 0 ∧
      p'.pet_cleanliness = max (wakeExamplePet.pet_cleanliness - 10) 0 ∧
      p'.pet_mood = (if wakeExamplePet.pet_hunger ≤ 10 then Mood.sad else Mood.excited) :=
  (wakePet_contract wakeExampleWorld 1000 "o1" wakeExamplePet (by decide)
    (by decide)).2.2 1000 rfl (by decide)

/-! ## C8: `updatePetLevel` idempotence -/

/-- **C8.** `updatePetLevel` is idempotent: when the stored level and age
stage already equal the values computed from the pet's experience it returns
the pet unchanged without performing a repository write (the world, including
its write counter, is untouched); and whatever a first call returns, an
immediate second call on its result changes nothing. -/
theorem updatePetLevel_idempotent (w : World) (p : Pet)
    (hid : findPetById w.pets p.pet_id = some p) :
    ((calculateLevelFromXP p.experience).level = p.level ∧
      (calculateLevelFromXP p.experience).age_stage = p.age_stage →
      updatePetLevel w p = (some p, w)) ∧
    (∀ p₁ w₁, updatePetLevel w p = (some p₁, w₁) →
      updatePetLevel w₁ p₁ = (some p₁, w₁)) := by
  constructor
  · intro h
    simp only [updatePetLevel, if_pos h]
  · intro p₁ w₁ hcall
    by_cases h : (calculateLevelFromXP p.experience).level = p.level ∧
        (calculateLevelFromXP p.experience).age_stage = p.age_stage
    · simp only [updatePetLevel, if_pos h] at hcall
      have hp : p = p₁ := by
        have := congrArg Prod.fst hcall
        simpa using this
      have hw : w = w₁ := congrArg Prod.snd hcall
      subst hp; subst hw
      simp only [updatePetLevel, if_pos h]
    · simp only [updatePetLevel, if_neg h, updatePetStats, hid] at hcall
      have hp : applyPetUpdate
          { level := some (calculateLevelFromXP p.experience).level
            age_stage := some (calculateLevelFromXP p.experience).age_stage }
          p = p₁ := by
        have := congrArg Prod.fst hcall
        simpa using this
      have hexp : p₁.experience = p.experience := by
        rw [← hp]; simp [applyPetUpdate]
      have hlev : p₁.level = (calculateLevelFromXP p.experience).level := by
        rw [← hp]; simp [applyPetUpdate]
      have hage : p₁.age_stage = (calculateLevelFromXP p.experience).age_stage := by
        rw [← hp]; simp [applyPetUpdate]
      have hcond : (calculateLevelFromXP p₁.experience).level = p₁.level ∧
          (calculateLevelFromXP p₁.experience).age_stage = p₁.age_stage := by
        rw [hexp, hlev, hage]; exact ⟨rfl, rfl⟩
      simp only [updatePetLevel, if_pos hcond]

/-- A level-consistent stored pet used to witness C8. -/
def levelExamplePet : Pet :=
  { pet_id := "p2", owner_id := "o2", name := "Heron", species := "heron"
    level := 1, experience := 0, age_stage := AgeStage.infant
    pet_mood := Mood.excited, pet_coin := 500, pet_energy := 100
    pet_hunger := 100, pet_cleanliness := 100, pet_happiness := 100
    last_interaction_at := 0, sleep_until := none }

def levelExampleWorld : World :=
  { pets := [levelExamplePet], userQuests := [], dailyQuests := [], foods := []
    inventory := [], nextUserQuestId := 0, nextInventoryId := 0, nextPetId := 1
    writes := 0 }

/-- Witness for C8 at the concrete level-consistent pet. -/
theorem updatePetLevel_idempotent_witness :
    updatePetLevel levelExampleWorld levelExamplePet = (some levelExamplePet, levelExampleWorld) :=
  (updatePetLevel_idempotent levelExampleWorld levelExamplePet (by decide)).1 (by decide)

/-! ## FoodInventoryRepository -/

/-- `FoodInventoryRepository.updateQuantity`: fetch by primary key, set the
quantity, save. -/
def updateInventoryQuantity (w : World) (inventory_id : Nat) (quantity : Int) :
    Option FoodInventory × World :=
  match findInventoryById w.inventory inventory_id with
  | none => (none, w)
  | some r =>
    (some { r with quantity := quantity },
     { w with
        inventory := w.inventory.map fun s =>
          if s.inventory_id = inventory_id then { s with quantity := quantity } else s })

/-- `FoodInventoryRepository.addFoodToInventory`: insert a fresh row. -/
def addFoodToInventory (w : World) (owner_id food_id : String) (quantity : Int) :
    FoodInventory × World :=
  let r : FoodInventory :=
    { inventory_id := w.nextInventoryId, owner_id := owner_id
      food_id := food_id, quantity := quantity }
  (r, { w with inventory := w.inventory ++ [r], nextInventoryId := w.nextInventoryId + 1 })

/-- `FoodInventoryRepository.deleteInventoryItem`. -/
def deleteInventoryItem (w : World) (inventory_id : Nat) : World :=
  { w with inventory := w.inventory.filter fun r => !(decide (r.inventory_id = inventory_id)) }

/-! ## FoodService -/

/-- The stats object `feedPet` hands to `updatePetStats`: hunger filled and
capped, experience increased, two coins awarded with cap. -/
def feedPetStatsUpdate (now : Int) (pet : Pet) (food : PetFood) : PetStatsUpdate :=
  { pet_hunger := some (min (pet.pet_hunger + food.hunger_fill_amount) GAUGE_LIMIT)
    experience := some (pet.experience + food.xp_gain)
    pet_coin := some (min (pet.pet_coin + 2) COIN_LIMIT)
    last_interaction_at := some now }

/-- `FoodService.feedPet`. -/
def feedPet (w : World) (now : Int) (owner_id food_id : String) :
    Except AppErr (Pet × Option FoodInventory × World) :=
  match findPetByOwner w.pets owner_id with
  | none => Except.error AppErr.PET_NOT_FOUND
  | some pet =>
    if isSleepingNow now pet then Except.error AppErr.PET_SLEEPING
    else
      match findFoodById w.foods food_id with
      | none => Except.error AppErr.FOOD_NOT_FOUND
      | some food =>
        match findInventoryByOwnerAndFood w.inventory owner_id food.food_id with
        | none => Except.error AppErr.FOOD_NOT_IN_INVENTORY
        | some inv =>
          if inv.quantity ≤ 0 then Except.error AppErr.INSUFFICIENT_QUANTITY
          else
            match updatePetStats w pet.pet_id (feedPetStatsUpdate now pet food) with
            | (none, _) => Except.error AppErr.UPDATE_FAILED
            | (some updatedPet, w₁) =>
              match updatePetLevel w₁ updatedPet with
              | (none, _) => Except.error AppErr.LEVEL_UPDATE_FAILED
              | (some leveledPet, w₂) =>
                if 0 < inv.quantity - 1 then
                  let r := updateInventoryQuantity w₂ inv.inventory_id (inv.quantity - 1)
                  Except.ok (leveledPet, r.1, r.2)
                else
                  Except.ok (leveledPet, none, deleteInventoryItem w₂ inv.inventory_id)

/-! ### Helper lemmas for C6/C7 -/

/-- Rewriting a stored pet in place is visible to a subsequent primary-key
lookup, provided the rewrite preserves the key. -/
theorem findPetById_map_update (pets : List Pet) (id : String) (f : Pet → Pet) (p : Pet)
    (hpres : ∀ q, (f q).pet_id = q.pet_id)
    (h : findPetById pets id = some p) :
    findPetById (pets.map fun q => if q.pet_id = id then f q else q) id = some (f p) := by
  induction pets with
  | nil => simp [findPetById] at h
  | cons q qs ih =>
    by_cases hq : q.pet_id = id
    · rw [findPetById, if_pos hq] at h
      obtain rfl := Option.some.inj h
      simp only [List.map_cons, if_pos hq, findPetById, hpres, hq, if_true, if_pos]
    · rw [findPetById, if_neg hq] at h
      simp only [List.map_cons, if_neg hq, findPetById, if_neg hq]
      exact ih h

/-- `updatePetLevel` on a stored pet always succeeds, recomputes level and
age stage from the experience, and touches nothing else. -/
theorem updatePetLevel_found (w : World) (p : Pet)
    (hid : findPetById w.pets p.pet_id = some p) :
    ∃ p₁ w₁, updatePetLevel w p = (some p₁, w₁) ∧
      p₁.level = (calculateLevelFromXP p.experience).level ∧
      p₁.age_stage = (calculateLevelFromXP p.experience).age_stage ∧
      p₁.pet_hunger = p.pet_hunger ∧
      p₁.experience = p.experience ∧
      p₁.pet_coin = p.pet_coin ∧
      p₁.pet_energy = p.pet_energy ∧
      p₁.pet_cleanliness = p.pet_cleanliness ∧
      p₁.pet_happiness = p.pet_happiness ∧
      p₁.pet_mood = p.pet_mood ∧
      p₁.sleep_until = p.sleep_until ∧
      w₁.inventory = w.inventory ∧
      w₁.foods = w.foods ∧
      w₁.userQuests = w.userQuests ∧
      w₁.dailyQuests = w.dailyQuests := by
  unfold updatePetLevel
  by_cases h : (calculateLevelFromXP p.experience).level = p.level ∧
      (calculateLevelFromXP p.experience).age_stage = p.age_stage
  · rw [if_pos h]
    exact ⟨p, w, rfl, h.1.symm, h.2.symm, rfl, rfl, rfl, rfl, rfl, rfl, rfl, rfl,
      rfl, rfl, rfl, rfl⟩
  · rw [if_neg h, updatePetStats_found w p.pet_id _ p hid]
    refine ⟨_, _, rfl, ?_⟩
    simp [applyPetUpdate]

/-- A deleted inventory row is no longer found. -/
theorem findInventoryById_delete (rows : List FoodInventory) (id : Nat) :
    findInventoryById (rows.filter fun r => !(decide (r.inventory_id = id))) id = none := by
  induction rows with
  | nil => simp [findInventoryById]
  | cons r rs ih =>
    by_cases hr : r.inventory_id = id
    · simpa [List.filter, hr] using ih
    · simpa [List.filter, hr, findInventoryById] using ih

/-- Unfolding lemma: `updateQuantity` on a stored inventory row. -/
theorem updateInventoryQuantity_found (w : World) (id : Nat) (q : Int) (r : FoodInventory)
    (h : findInventoryById w.inventory id = some r) :
    updateInventoryQuantity w id q =
      (some { r with quantity := q },
       { w with
          inventory := w.inventory.map fun s =>
            if s.inventory_id = id then { s with quantity := q } else s }) := by
  simp [updateInventoryQuantity, h]

/-- **C7.** For every pet that exists, is not sleeping, and has the given
food in inventory with quantity > 0, `feedPet` caps hunger at 100 after
adding the fill amount, adds the food's `xp_gain` to experience, adds 2
coins capped at 9999, recomputes the level and age stage from the new
experience, and decrements the inventory quantity by one, deleting the row
(returning no inventory) when the quantity reaches zero; and it fails with
`PET_SLEEPING`, `FOOD_NOT_FOUND`, `FOOD_NOT_IN_INVENTORY` or
`INSUFFICIENT_QUANTITY` when the respective precondition is violated. -/
theorem feedPet_contract (w : World) (now : Int) (owner fid : String) (pet : Pet)
    (hfind : findPetByOwner w.pets owner = some pet)
    (hid : findPetById w.pets pet.pet_id = some pet) :
    (isSleepingNow now pet = true →
      feedPet w now owner fid = Except.error AppErr.PET_SLEEPING) ∧
    (isSleepingNow now pet = false → findFoodById w.foods fid = none →
      feedPet w now owner fid = Except.error AppErr.FOOD_NOT_FOUND) ∧
    (∀ food, isSleepingNow now pet = false → findFoodById w.foods fid = some food →
      findInventoryByOwnerAndFood w.inventory owner food.food_id = none →
      feedPet w now owner fid = Except.error AppErr.FOOD_NOT_IN_INVENTORY) ∧
    (∀ food inv, isSleepingNow now pet = false → findFoodById w.foods fid = some food →
      findInventoryByOwnerAndFood w.inventory owner food.food_id = some inv →
      inv.quantity ≤ 0 →
      feedPet w now owner fid = Except.error AppErr.INSUFFICIENT_QUANTITY) ∧
    (∀ food inv, isSleepingNow now pet = false → findFoodById w.foods fid = some food →
      findInventoryByOwnerAndFood w.inventory owner food.food_id = some inv →
      0 < inv.quantity →
      findInventoryById w.inventory inv.inventory_id = some inv →
      ∃ p' w',
        feedPet w now owner fid = Except.ok
          (p',
           if 0 < inv.quantity - 1 then some { inv with quantity := inv.quantity - 1 }
           else none,
           w') ∧
        p'.pet_hunger = min (pet.pet_hunger + food.hunger_fill_amount) 100 ∧
        p'.experience = pet.experience + food.xp_gain ∧
        p'.pet_coin = min (pet.pet_coin + 2) 9999 ∧
        p'.level = (calculateLevelFromXP (pet.experience + food.xp_gain)).level ∧
        p'.age_stage = (calculateLevelFromXP (pet.experience + food.xp_gain)).age_stage ∧
        (inv.quantity = 1 → findInventoryById w'.inventory inv.inventory_id = none)) := by
  refine ⟨?_, ?_, ?_, ?_, ?_⟩
  · intro hs
    simp [feedPet, hfind, hs]
  · intro hs hf
    simp [feedPet, hfind, hs, hf]
  · intro food hs hf hi
    simp [feedPet, hfind, hs, hf, hi]
  · intro food inv hs hf hi hq
    simp [feedPet, hfind, hs, hf, hi, hq]
  · intro food inv hs hf hi hq hinvid
    have hnotle : ¬ inv.quantity ≤ 0 := by omega
    have hup := updatePetStats_found w pet.pet_id (feedPetStatsUpdate now pet food) pet hid
    have hpid : (applyPetUpdate (feedPetStatsUpdate now pet food) pet).pet_id = pet.pet_id := by
      simp [applyPetUpdate]
    have hid₁ := findPetById_map_update w.pets pet.pet_id
      (applyPetUpdate (feedPetStatsUpdate now pet food)) pet
      (fun q => by simp [applyPetUpdate]) hid
    obtain ⟨p₂, w₂, hlev, hl, ha, hh, he, hc, hen, hcl, hhap, hm, hsu2, hinv2, hfoods2,
      huq2, hdq2⟩ :=
      updatePetLevel_found
        { w with
            pets := w.pets.map fun q =>
              if q.pet_id = pet.pet_id then applyPetUpdate (feedPetStatsUpdate now pet food) q
              else q
            writes := w.writes + 1 }
        (applyPetUpdate (feedPetStatsUpdate now pet food) pet)
        (by rw [hpid]; exact hid₁)
    have hfields :
        p₂.pet_hunger = min (pet.pet_hunger + food.hunger_fill_amount) 100 ∧
        p₂.experience = pet.experience + food.xp_gain ∧
        p₂.pet_coin = min (pet.pet_coin + 2) 9999 ∧
        p₂.level = (calculateLevelFromXP (pet.experience + food.xp_gain)).level ∧
        p₂.age_stage = (calculateLevelFromXP (pet.experience + food.xp_gain)).age_stage := by
      refine ⟨?_, ?_, ?_, ?_, ?_⟩
      · rw [hh]; simp [applyPetUpdate, feedPetStatsUpdate, GAUGE_LIMIT]
      · rw [he]; simp [applyPetUpdate, feedPetStatsUpdate]
      · rw [hc]; simp [applyPetUpdate, feedPetStatsUpdate, COIN_LIMIT]
      · rw [hl]; simp [applyPetUpdate, feedPetStatsUpdate]
      · rw [ha]; simp [applyPetUpdate, feedPetStatsUpdate]
    have hinvW2 : findInventoryById w₂.inventory inv.inventory_id = some inv := by
      rw [hinv2]; exact hinvid
    by_cases hone : 0 < inv.quantity - 1
    · have hquq := updateInventoryQuantity_found w₂ inv.inventory_id (inv.quantity - 1)
        inv hinvW2
      refine ⟨p₂, (updateInventoryQuantity w₂ inv.inventory_id (inv.quantity - 1)).2,
        ?_, hfields.1, hfields.2.1, hfields.2.2.1, hfields.2.2.2.1,
        hfields.2.2.2.2, fun h1 => absurd h1 (by omega)⟩
      simp only [feedPet, hfind, hs, Bool.false_eq_true, if_false, hf, hi,
        if_neg hnotle, hup, hlev, if_pos hone, hquq]
    · refine ⟨p₂, deleteInventoryItem w₂ inv.inventory_id,
        ?_, hfields.1, hfields.2.1, hfields.2.2.1, hfields.2.2.2.1,
        hfields.2.2.2.2, ?_⟩
      · simp only [feedPet, hfind, hs, Bool.false_eq_true, if_false, hf, hi,
          if_neg hnotle, hup, hlev, if_neg hone]
      · intro h1
        simp only [deleteInventoryItem]
        exact findInventoryById_delete w₂.inventory inv.inventory_id

/-- Concrete data witnessing C7: a pet with hunger 95 fed a food with fill 20
(the spec's clamping example) from an inventory row holding one unit. -/
def feedExampleFood : PetFood :=
  { food_id := "f1", food_name := "berry", xp_gain := 10
    hunger_fill_amount := 20, food_price := 5 }

def feedExamplePet : Pet :=
  { pet_id := "p3", owner_id := "o3", name := "Heron", species := "heron"
    level := 1, experience := 0, age_stage := AgeStage.infant
    pet_mood := Mood.excited, pet_coin := 500, pet_energy := 100
    pet_hunger := 95, pet_cleanliness := 100, pet_happiness := 100
    last_interaction_at := 0, sleep_until := none }

def feedExampleInv : FoodInventory :=
  { inventory_id := 0, owner_id := "o3", food_id := "f1", quantity := 1 }

def feedExampleWorld : World :=
  { pets := [feedExamplePet], userQuests := [], dailyQuests := []
    foods := [feedExampleFood], inventory := [feedExampleInv]
    nextUserQuestId := 0, nextInventoryId := 1, nextPetId := 1, writes := 0 }

/-- Witness for C7: feeding the hunger-95 pet a fill-20 food clamps hunger
at 100 and deletes the single-unit inventory row. -/
theorem feedPet_contract_witness :
    ∃ p' w',
      feedPet feedExampleWorld 0 "o3" "f1" = Except.ok
        (p',
         if 0 < feedExampleInv.quantity - 1
         then some { feedExampleInv with quantity := feedExampleInv.quantity - 1 }
         else none,
         w') ∧
      p'.pet_hunger =
        min (feedExamplePet.pet_hunger + feedExampleFood.hunger_fill_amount) 100 ∧
      p'.experience = feedExamplePet.experience + feedExampleFood.xp_gain ∧
      p'.pet_coin = min (feedExamplePet.pet_coin + 2) 9999 ∧
      p'.level =
        (calculateLevelFromXP (feedExamplePet.experience + feedExampleFood.xp_gain)).level ∧
      p'.age_stage =
        (calculateLevelFromXP (feedExamplePet.experience + feedExampleFood.xp_gain)).age_stage ∧
      (feedExampleInv.quantity = 1 →
        findInventoryById w'.inventory feedExampleInv.inventory_id = none) :=
  (feedPet_contract feedExampleWorld 0 "o3" "f1" feedExamplePet (by decide)
      (by decide)).2.2.2.2 feedExampleFood feedExampleInv
    (by decide) (by decide) (by decide) (by decide) (by decide)

/-! ## QuestsService: claiming -/

/-- `UserQuestsRepository.updateUserQuestStatus`: fetch by primary key, set
the status, save.  (`claimQuest` passes no `completed_at`, so the
timestamp branch is inactive on the modelled path.) -/
def updateUserQuestStatus (w : World) (user_quest_id : Nat) (status : QuestStatus) :
    Option UserQuest × World :=
  match findUserQuestById w.userQuests user_quest_id with
  | none => (none, w)
  | some uq =>
    (some { uq with status := status },
     { w with
        userQuests := w.userQuests.map fun q =>
          if q.user_quest_id = user_quest_id then { q with status := status } else q })

/-- The `reward_type === "food" && reward_food_id` block of
`QuestsService.claimQuest`: resolve the reward food and add one unit to the
owner's inventory (incrementing an existing row, else inserting one). -/
def claimFoodStep (w : World) (owner_id : String) (questDef : QuestDefinition) :
    Except AppErr World :=
  if questDef.reward_type = "food" then
    match questDef.reward_food_id with
    | none => Except.ok w
    | some rfid =>
      match findFoodById w.foods rfid with
      | none => Except.error AppErr.FOOD_NOT_FOUND
      | some rewardPetFood =>
        match findInventoryByOwnerAndFood w.inventory owner_id rewardPetFood.food_id with
        | some existing =>
          match updateInventoryQuantity w existing.inventory_id (existing.quantity + 1) with
          | (none, _) => Except.error AppErr.UPDATE_FAILED
          | (some _, w₂) => Except.ok w₂
        | none => Except.ok (addFoodToInventory w owner_id rewardPetFood.food_id 1).2
  else Except.ok w

/-- The stats object `claimQuest` hands to `updatePetStats`: reward money
capped, reward experience uncapped, hunger recovery capped. -/
def claimRewardUpdate (pet : Pet) (questDef : QuestDefinition) : PetStatsUpdate :=
  { pet_coin := some (min (pet.pet_coin + questDef.reward_money) COIN_LIMIT)
    experience := some (pet.experience + questDef.reward_experience)
    pet_hunger := some (min (pet.pet_hunger + questDef.hunger_recovery) GAUGE_LIMIT) }

/-- `QuestsService.claimQuest`: validation chain, reward crediting (the
result of the pet write is not checked by the source), optional food reward,
then the terminal transition to `claimed`. -/
def claimQuest (w : World) (owner_id : String) (user_quest_id : Nat) :
    Except AppErr (UserQuest × World) :=
  match findUserQuestById w.userQuests user_quest_id with
  | none => Except.error AppErr.QUEST_NOT_FOUND
  | some userQuest =>
    if userQuest.owner_id ≠ owner_id then Except.error AppErr.QUEST_NOT_OWNED
    else if userQuest.status = QuestStatus.claimed then
      Except.error AppErr.QUEST_ALREADY_CLAIMED
    else if userQuest.status = QuestStatus.expired then
      Except.error AppErr.QUEST_EXPIRED
    else if userQuest.status ≠ QuestStatus.complete then
      Except.error AppErr.QUEST_NOT_COMPLETE
    else
      match findPetByOwner w.pets owner_id with
      | none => Except.error AppErr.PET_NOT_FOUND
      | some pet =>
        let questDef := userQuest.daily_quest_id.quest_definition_id
        let w₁ := (updatePetStats w pet.pet_id (claimRewardUpdate pet questDef)).2
        match claimFoodStep w₁ owner_id questDef with
        | Except.error e => Except.error e
        | Except.ok w₂ =>
          match updateUserQuestStatus w₂ user_quest_id QuestStatus.claimed with
          | (none, _) => Except.error AppErr.QUEST_CLAIM_FAILED
          | (some claimedQuest, w₃) => Except.ok (claimedQuest, w₃)

/-! ### Frame and inversion lemmas for `claimQuest` -/

/-- `updatePetStats` only touches the pets table (and the write counter). -/
theorem updatePetStats_snd_frame (w : World) (id : String) (u : PetStatsUpdate) :
    (updatePetStats w id u).2.userQuests = w.userQuests ∧
    (updatePetStats w id u).2.inventory = w.inventory ∧
    (updatePetStats w id u).2.foods = w.foods ∧
    (updatePetStats w id u).2.nextInventoryId = w.nextInventoryId := by
  unfold updatePetStats
  cases findPetById w.pets id <;> simp

/-- `updateQuantity` only touches the inventory table. -/
theorem updateInventoryQuantity_snd_frame (w : World) (id : Nat) (q : Int) :
    (updateInventoryQuantity w id q).2.pets = w.pets ∧
    (updateInventoryQuantity w id q).2.userQuests = w.userQuests := by
  unfold updateInventoryQuantity
  cases findInventoryById w.inventory id <;> simp

/-- A successful food step only touches the inventory table. -/
theorem claimFoodStep_ok_frame (w : World) (owner : String) (qd : QuestDefinition)
    (w₂ : World) (h : claimFoodStep w owner qd = Except.ok w₂) :
    w₂.userQuests = w.userQuests ∧ w₂.pets = w.pets := by
  unfold claimFoodStep at h
  split at h
  · split at h
    · exact ⟨congrArg World.userQuests (Except.ok.inj h).symm,
        congrArg World.pets (Except.ok.inj h).symm⟩
    · split at h
      · exact absurd h (by simp)
      · split at h
        · split at h
          · exact absurd h (by simp)
          · rename_i x w₂x heq
            obtain rfl : w₂x = w₂ := Except.ok.inj h
            have hsnd := congrArg Prod.snd heq
            simp only at hsnd
            rw [← hsnd]
            exact ⟨(updateInventoryQuantity_snd_frame w _ _).2,
              (updateInventoryQuantity_snd_frame w _ _).1⟩
        · obtain rfl := Except.ok.inj h
          simp [addFoodToInventory]
  · exact ⟨congrArg World.userQuests (Except.ok.inj h).symm,
      congrArg World.pets (Except.ok.inj h).symm⟩

/-- Rewriting a stored user quest in place is visible to a subsequent
primary-key lookup, provided the rewrite preserves the key. -/
theorem findUserQuestById_map_update (qs : List UserQuest) (id : Nat)
    (f : UserQuest → UserQuest) (q : UserQuest)
    (hpres : ∀ r, (f r).user_quest_id = r.user_quest_id)
    (h : findUserQuestById qs id = some q) :
    findUserQuestById (qs.map fun r => if r.user_quest_id = id then f r else r) id
      = some (f q) := by
  induction qs with
  | nil => simp [findUserQuestById] at h
  | cons x xs ih =>
    by_cases hx : x.user_quest_id = id
    · rw [findUserQuestById, if_pos hx] at h
      obtain rfl := Option.some.inj h
      simp only [List.map_cons, if_pos hx, findUserQuestById, hpres, hx, if_pos]
    · rw [findUserQuestById, if_neg hx] at h
      simp only [List.map_cons, if_neg hx, findUserQuestById, if_neg hx]
      exact ih h

/-- Inverting a successful `claimQuest`: the quest was found, owned by the
caller and `complete`; the returned quest is the stored one moved to
`claimed`, and the stored table records that transition. -/
theorem claimQuest_ok_inversion (w : World) (owner : String) (qid : Nat)
    (r : UserQuest) (w' : World)
    (hsucc : claimQuest w owner qid = Except.ok (r, w')) :
    ∃ uq, findUserQuestById w.userQuests qid = some uq ∧
      uq.owner_id = owner ∧
      uq.status = QuestStatus.complete ∧
      r = { uq with status := QuestStatus.claimed } ∧
      w'.userQuests = w.userQuests.map fun q =>
        if q.user_quest_id = qid then { q with status := QuestStatus.claimed } else q := by
  unfold claimQuest at hsucc
  split at hsucc
  · exact absurd hsucc (by simp)
  rename_i uq hq
  split at hsucc
  · exact absurd hsucc (by simp)
  rename_i hownne
  have hown : uq.owner_id = owner := not_not.mp hownne
  split at hsucc
  · exact absurd hsucc (by simp)
  rename_i hncl
  split at hsucc
  · exact absurd hsucc (by simp)
  rename_i hnex
  split at hsucc
  · exact absurd hsucc (by simp)
  rename_i hncomp
  have hcomp : uq.status = QuestStatus.complete := not_not.mp hncomp
  split at hsucc
  · exact absurd hsucc (by simp)
  rename_i pet hpet
  simp only [] at hsucc
  split at hsucc
  · exact absurd hsucc (by simp)
  rename_i w₂ hfood
  have hframe := claimFoodStep_ok_frame _ owner _ w₂ hfood
  have hW₁ := updatePetStats_snd_frame w pet.pet_id
    (claimRewardUpdate pet uq.daily_quest_id.quest_definition_id)
  have hquests : w₂.userQuests = w.userQuests := hframe.1.trans hW₁.1
  split at hsucc
  · exact absurd hsucc (by simp)
  rename_i claimedQuest w₃ heq
  obtain ⟨hr, hw⟩ : claimedQuest = r ∧ w₃ = w' := by
    have h1 := Except.ok.inj hsucc
    exact ⟨congrArg Prod.fst h1, congrArg Prod.snd h1⟩
  unfold updateUserQuestStatus at heq
  rw [hquests, hq] at heq
  simp only at heq
  have hfst := congrArg Prod.fst heq
  have hsnd := congrArg Prod.snd heq
  simp only at hfst hsnd
  refine ⟨uq, hq, hown, hcomp, ?_, ?_⟩
  · rw [← hr]
    exact (Option.some.inj hfst).symm
  · rw [← hw, ← hsnd]

/-- `updateUserQuestStatus` only touches the user-quests table. -/
theorem updateUserQuestStatus_snd_frame (w : World) (id : Nat) (s : QuestStatus) :
    (updateUserQuestStatus w id s).2.pets = w.pets ∧
    (updateUserQuestStatus w id s).2.inventory = w.inventory := by
  unfold updateUserQuestStatus
  cases findUserQuestById w.userQuests id <;> simp

/-- Rewriting a stored inventory row in place is visible to a subsequent
primary-key lookup, provided the rewrite preserves the key. -/
theorem findInventoryById_map_update (rows : List FoodInventory) (id : Nat)
    (f : FoodInventory → FoodInventory) (r : FoodInventory)
    (hpres : ∀ s, (f s).inventory_id = s.inventory_id)
    (h : findInventoryById rows id = some r) :
    findInventoryById (rows.map fun s => if s.inventory_id = id then f s else s) id
      = some (f r) := by
  induction rows with
  | nil => simp [findInventoryById] at h
  | cons x xs ih =>
    by_cases hx : x.inventory_id = id
    · rw [findInventoryById, if_pos hx] at h
      obtain rfl := Option.some.inj h
      simp only [List.map_cons, if_pos hx, findInventoryById, hpres, hx, if_pos]
    · rw [findInventoryById, if_neg hx] at h
      simp only [List.map_cons, if_neg hx, findInventoryById, if_neg hx]
      exact ih h

/-- An inserted row with a fresh key is found after the append. -/
theorem findInventoryById_append_fresh (rows : List FoodInventory) (r : FoodInventory)
    (h : findInventoryById rows r.inventory_id = none) :
    findInventoryById (rows ++ [r]) r.inventory_id = some r := by
  induction rows with
  | nil => simp [findInventoryById]
  | cons x xs ih =>
    rw [findInventoryById] at h
    by_cases hx : x.inventory_id = r.inventory_id
    · rw [if_pos hx] at h; exact absurd h (by simp)
    · rw [if_neg hx] at h
      simpa [findInventoryById, hx] using ih h

/-- Effect of a successful food step on the inventory: one unit of the
resolved reward food is added — the existing row is incremented, or a fresh
row with quantity 1 is inserted. -/
theorem claimFoodStep_effects (w : World) (owner : String) (qd : QuestDefinition)
    (w₂ : World) (h : claimFoodStep w owner qd = Except.ok w₂) :
    ∀ rfid food, qd.reward_type = "food" → qd.reward_food_id = some rfid →
      findFoodById w.foods rfid = some food →
      (∀ ex, findInventoryByOwnerAndFood w.inventory owner food.food_id = some ex →
        findInventoryById w.inventory ex.inventory_id = some ex →
        findInventoryById w₂.inventory ex.inventory_id
          = some { ex with quantity := ex.quantity + 1 }) ∧
      (findInventoryByOwnerAndFood w.inventory owner food.food_id = none →
        findInventoryById w.inventory w.nextInventoryId = none →
        findInventoryById w₂.inventory w.nextInventoryId =
          some { inventory_id := w.nextInventoryId, owner_id := owner
                 food_id := food.food_id, quantity := 1 }) := by
  intro rfid food ht hrf hfood
  unfold claimFoodStep at h
  rw [if_pos ht, hrf] at h
  simp only [] at h
  rw [hfood] at h
  simp only [] at h
  cases hex : findInventoryByOwnerAndFood w.inventory owner food.food_id with
  | some ex =>
    rw [hex] at h
    simp only [] at h
    constructor
    · intro ex₀ hex₀ hexid
      obtain rfl : ex = ex₀ := Option.some.inj hex₀
      rw [updateInventoryQuantity_found w ex.inventory_id (ex.quantity + 1) ex hexid] at h
      simp only [] at h
      obtain rfl : _ = w₂ := Except.ok.inj h
      exact findInventoryById_map_update w.inventory ex.inventory_id
        (fun s => { s with quantity := ex.quantity + 1 }) ex (fun s => rfl) hexid
    · intro hnone
      exact absurd hnone (by simp)
  | none =>
    rw [hex] at h
    simp only [] at h
    obtain rfl : _ = w₂ := Except.ok.inj h
    constructor
    · intro ex₀ hex₀ hexid
      exact absurd hex₀ (by simp)
    · intro hnone hfresh
      exact findInventoryById_append_fresh w.inventory
        { inventory_id := w.nextInventoryId, owner_id := owner
          food_id := food.food_id, quantity := 1 } hfresh

/-- **C3.** `claimQuest` fails with `QUEST_NOT_FOUND` when no user quest with
the id exists; `QUEST_NOT_OWNED` when the owner differs; `QUEST_ALREADY_CLAIMED`
when the status is `claimed`; `QUEST_EXPIRED` when it is `expired`;
`QUEST_NOT_COMPLETE` when it is `pending`; it succeeds only from status
`complete`; and after a successful claim a second call on the same quest
fails. -/
theorem claimQuest_error_handling (w : World) (owner : String) (qid : Nat) :
    (findUserQuestById w.userQuests qid = none →
      claimQuest w owner qid = Except.error AppErr.QUEST_NOT_FOUND) ∧
    (∀ uq, findUserQuestById w.userQuests qid = some uq → uq.owner_id ≠ owner →
      claimQuest w owner qid = Except.error AppErr.QUEST_NOT_OWNED) ∧
    (∀ uq, findUserQuestById w.userQuests qid = some uq → uq.owner_id = owner →
      uq.status = QuestStatus.claimed →
      claimQuest w owner qid = Except.error AppErr.QUEST_ALREADY_CLAIMED) ∧
    (∀ uq, findUserQuestById w.userQuests qid = some uq → uq.owner_id = owner →
      uq.status = QuestStatus.expired →
      claimQuest w owner qid = Except.error AppErr.QUEST_EXPIRED) ∧
    (∀ uq, findUserQuestById w.userQuests qid = some uq → uq.owner_id = owner →
      uq.status = QuestStatus.pending →
      claimQuest w owner qid = Except.error AppErr.QUEST_NOT_COMPLETE) ∧
    (∀ r w', claimQuest w owner qid = Except.ok (r, w') →
      ∃ uq, findUserQuestById w.userQuests qid = some uq ∧
        uq.status = QuestStatus.complete) ∧
    (∀ r w', claimQuest w owner qid = Except.ok (r, w') →
      claimQuest w' owner qid = Except.error AppErr.QUEST_ALREADY_CLAIMED) := by
  refine ⟨?_, ?_, ?_, ?_, ?_, ?_, ?_⟩
  · intro h
    simp [claimQuest, h]
  · intro uq hq hne
    simp [claimQuest, hq, hne]
  · intro uq hq hown hst
    simp [claimQuest, hq, hown, hst]
  · intro uq hq hown hst
    simp [claimQuest, hq, hown, hst]
  · intro uq hq hown hst
    simp [claimQuest, hq, hown, hst]
  · intro r w' hsucc
    obtain ⟨uq, hq, _, hcomp, _, _⟩ := claimQuest_ok_inversion w owner qid r w' hsucc
    exact ⟨uq, hq, hcomp⟩
  · intro r w' hsucc
    obtain ⟨uq, hq, hown, hcomp, hr, hwq⟩ := claimQuest_ok_inversion w owner qid r w' hsucc
    have hfind' : findUserQuestById w'.userQuests qid
        = some { uq with status := QuestStatus.claimed } := by
      rw [hwq]
      exact findUserQuestById_map_update w.userQuests qid
        (fun q => { q with status := QuestStatus.claimed }) uq (fun q => rfl) hq
    simp [claimQuest, hfind', hown]

/-- **C4.** A successful `claimQuest` on a complete quest whose owner has a
pet adds the reward money to the pet's coins capped at 9999, the reward
experience to its experience with no cap, and the hunger recovery to its
hunger capped at 100; when the reward type is `food` with a designated food
id it adds exactly one unit of that food to the owner's inventory
(incrementing the existing row, else creating a row with quantity 1);
finally the quest status becomes `claimed`. -/
theorem claimQuest_reward_crediting (w : World) (owner : String) (qid : Nat)
    (uq : UserQuest) (pet : Pet) (r : UserQuest) (w' : World)
    (hq : findUserQuestById w.userQuests qid = some uq)
    (hpet : findPetByOwner w.pets owner = some pet)
    (hpid : findPetById w.pets pet.pet_id = some pet)
    (hsucc : claimQuest w owner qid = Except.ok (r, w')) :
    (∃ p', findPetById w'.pets pet.pet_id = some p' ∧
      p'.pet_coin =
        min (pet.pet_coin + uq.daily_quest_id.quest_definition_id.reward_money) 9999 ∧
      p'.experience =
        pet.experience + uq.daily_quest_id.quest_definition_id.reward_experience ∧
      p'.pet_hunger =
        min (pet.pet_hunger + uq.daily_quest_id.quest_definition_id.hunger_recovery) 100) ∧
    r.status = QuestStatus.claimed ∧
    findUserQuestById w'.userQuests qid = some { uq with status := QuestStatus.claimed } ∧
    (∀ rfid food,
      uq.daily_quest_id.quest_definition_id.reward_type = "food" →
      uq.daily_quest_id.quest_definition_id.reward_food_id = some rfid →
      findFoodById w.foods rfid = some food →
      (∀ ex, findInventoryByOwnerAndFood w.inventory owner food.food_id = some ex →
        findInventoryById w.inventory ex.inventory_id = some ex →
        findInventoryById w'.inventory ex.inventory_id
          = some { ex with quantity := ex.quantity + 1 }) ∧
      (findInventoryByOwnerAndFood w.inventory owner food.food_id = none →
        findInventoryById w.inventory w.nextInventoryId = none →
        findInventoryById w'.inventory w.nextInventoryId =
          some { inventory_id := w.nextInventoryId, owner_id := owner
                 food_id := food.food_id, quantity := 1 })) := by
  obtain ⟨uq₀, hq₀, hown, hcomp, hr, hwq⟩ := claimQuest_ok_inversion w owner qid r w' hsucc
  rw [hq] at hq₀
  obtain rfl : uq = uq₀ := Option.some.inj hq₀
  have hne : ¬ (uq.owner_id ≠ owner) := not_not_intro hown
  have hncl : ¬ (uq.status = QuestStatus.claimed) := by simp [hcomp]
  have hnex : ¬ (uq.status = QuestStatus.expired) := by simp [hcomp]
  have hncc : ¬ (uq.status ≠ QuestStatus.complete) := not_not_intro hcomp
  have hup := updatePetStats_found w pet.pet_id
    (claimRewardUpdate pet uq.daily_quest_id.quest_definition_id) pet hpid
  simp only [claimQuest, hq, if_neg hne, if_neg hncl, if_neg hnex, if_neg hncc,
    hpet, hup] at hsucc
  split at hsucc
  · exact absurd hsucc (by simp)
  rename_i w₂ hfood
  split at hsucc
  · exact absurd hsucc (by simp)
  rename_i claimedQuest w₃ hequpd
  obtain ⟨hrq, hww⟩ : claimedQuest = r ∧ w₃ = w' := by
    have h1 := Except.ok.inj hsucc
    exact ⟨congrArg Prod.fst h1, congrArg Prod.snd h1⟩
  have hframe := claimFoodStep_ok_frame _ owner _ w₂ hfood
  have hquestframe := updateUserQuestStatus_snd_frame w₂ qid QuestStatus.claimed
  have hw₃ : w₃ = (updateUserQuestStatus w₂ qid QuestStatus.claimed).2 :=
    (congrArg Prod.snd hequpd).symm
  have hpets' : w'.pets = w.pets.map fun q =>
      if q.pet_id = pet.pet_id
      then applyPetUpdate (claimRewardUpdate pet uq.daily_quest_id.quest_definition_id) q
      else q := by
    rw [← hww, hw₃]
    rw [hquestframe.1, hframe.2]
  have hinv' : w'.inventory = w₂.inventory := by
    rw [← hww, hw₃, hquestframe.2]
  refine ⟨?_, ?_, ?_, ?_⟩
  · refine ⟨applyPetUpdate (claimRewardUpdate pet uq.daily_quest_id.quest_definition_id) pet,
      ?_, ?_, ?_, ?_⟩
    · rw [hpets']
      exact findPetById_map_update w.pets pet.pet_id _ pet
        (fun q => by simp [applyPetUpdate]) hpid
    · simp [applyPetUpdate, claimRewardUpdate, COIN_LIMIT]
    · simp [applyPetUpdate, claimRewardUpdate]
    · simp [applyPetUpdate, claimRewardUpdate, GAUGE_LIMIT]
  · rw [hr]
  · rw [hwq]
    exact findUserQuestById_map_update w.userQuests qid
      (fun q => { q with status := QuestStatus.claimed }) uq (fun q => rfl) hq
  · intro rfid food ht hrf hfoodfind
    have heffects := claimFoodStep_effects _ owner _ w₂ hfood rfid food ht hrf hfoodfind
    constructor
    · intro ex hex hexid
      rw [hinv']
      exact heffects.1 ex hex hexid
    · intro hnone hfresh
      rw [hinv']
      exact heffects.2 hnone hfresh

/-- Concrete data witnessing C3: a pending user quest. -/
def claimErrQuestDef : QuestDefinition :=
  { quest_definition_id := "qd1", name := "walk", reward_money := 10
    reward_experience := 20, hunger_recovery := 5, reward_food_id := none
    reward_type := "none", is_active := true }

def claimErrDailyQuest : DailyQuest :=
  { daily_quest_id := "dq1", quest_definition_id := claimErrQuestDef
    scope := QuestScope.global, target_user_id := none, timestamp := 0 }

def claimErrUserQuest : UserQuest :=
  { user_quest_id := 1, owner_id := "o4", daily_quest_id := claimErrDailyQuest
    expires_at := some 86399999, status := QuestStatus.pending
    completed_at := none, created_at := 0 }

def claimErrWorld : World :=
  { pets := [], userQuests := [claimErrUserQuest], dailyQuests := [claimErrDailyQuest]
    foods := [], inventory := [], nextUserQuestId := 2, nextInventoryId := 0
    nextPetId := 0, writes := 0 }

/-- Witness for C3: claiming the pending quest fails with
`QUEST_NOT_COMPLETE`. -/
theorem claimQuest_error_handling_witness :
    claimQuest claimErrWorld "o4" 1 = Except.error AppErr.QUEST_NOT_COMPLETE :=
  (claimQuest_error_handling claimErrWorld "o4" 1).2.2.2.2.1 claimErrUserQuest
    (by decide) (by decide) (by decide)

/-- Concrete data witnessing C4: a complete quest with a food reward, a pet,
the reward food in the catalog and an empty inventory. -/
def claimRwFood : PetFood :=
  { food_id := "f2", food_name := "apple", xp_gain := 5
    hunger_fill_amount := 10, food_price := 3 }

def claimRwQuestDef : QuestDefinition :=
  { quest_definition_id := "qd2", name := "journal", reward_money := 7
    reward_experience := 30, hunger_recovery := 4, reward_food_id := some "f2"
    reward_type := "food", is_active := true }

def claimRwDailyQuest : DailyQuest :=
  { daily_quest_id := "dq2", quest_definition_id := claimRwQuestDef
    scope := QuestScope.global, target_user_id := none, timestamp := 0 }

def claimRwUserQuest : UserQuest :=
  { user_quest_id := 7, owner_id := "o5", daily_quest_id := claimRwDailyQuest
    expires_at := some 86399999, status := QuestStatus.complete
    completed_at := none, created_at := 0 }

def claimRwPet : Pet :=
  { pet_id := "p5", owner_id := "o5", name := "Heron", species := "heron"
    level := 1, experience := 0, age_stage := AgeStage.infant
    pet_mood := Mood.excited, pet_coin := 500, pet_energy := 100
    pet_hunger := 90, pet_cleanliness := 100, pet_happiness := 100
    last_interaction_at := 0, sleep_until := none }

def claimRwWorld : World :=
  { pets := [claimRwPet], userQuests := [claimRwUserQuest]
    dailyQuests := [claimRwDailyQuest], foods := [claimRwFood], inventory := []
    nextUserQuestId := 8, nextInventoryId := 3, nextPetId := 1, writes := 0 }

/-- The successfully claimed pair for the C4 witness world. -/
def claimRwResult : UserQuest × World :=
  match claimQuest claimRwWorld "o5" 7 with
  | Except.ok p => p
  | Except.error _ => (claimRwUserQuest, claimRwWorld)

/-- Witness for C4 at the concrete world. -/
theorem claimQuest_reward_crediting_witness :
    (∃ p', findPetById claimRwResult.2.pets claimRwPet.pet_id = some p' ∧
      p'.pet_coin = min (claimRwPet.pet_coin
        + claimRwUserQuest.daily_quest_id.quest_definition_id.reward_money) 9999 ∧
      p'.experience = claimRwPet.experience
        + claimRwUserQuest.daily_quest_id.quest_definition_id.reward_experience ∧
      p'.pet_hunger = min (claimRwPet.pet_hunger
        + claimRwUserQuest.daily_quest_id.quest_definition_id.hunger_recovery) 100) ∧
    claimRwResult.1.status = QuestStatus.claimed ∧
    findUserQuestById claimRwResult.2.userQuests 7
      = some { claimRwUserQuest with status := QuestStatus.claimed } ∧
    findInventoryById claimRwResult.2.inventory claimRwWorld.nextInventoryId =
      some { inventory_id := claimRwWorld.nextInventoryId, owner_id := "o5"
             food_id := claimRwFood.food_id, quantity := 1 } := by
  have h := claimQuest_reward_crediting claimRwWorld "o5" 7 claimRwUserQuest claimRwPet
    claimRwResult.1 claimRwResult.2 (by decide) (by decide) (by decide) rfl
  exact ⟨h.1, h.2.1, h.2.2.1,
    (h.2.2.2 "f2" claimRwFood rfl rfl (by decide)).2 (by decide) (by decide)⟩

/-! ## C6: gauge and coin invariants -/

/-- All four gauges within [0,100] and the coin balance within [0,9999]. -/
def PetInRange (p : Pet) : Prop :=
  0 ≤ p.pet_energy ∧ p.pet_energy ≤ 100 ∧
  0 ≤ p.pet_hunger ∧ p.pet_hunger ≤ 100 ∧
  0 ≤ p.pet_cleanliness ∧ p.pet_cleanliness ≤ 100 ∧
  0 ≤ p.pet_happiness ∧ p.pet_happiness ≤ 100 ∧
  0 ≤ p.pet_coin ∧ p.pet_coin ≤ 9999

instance (p : Pet) : Decidable (PetInRange p) := by
  unfold PetInRange; infer_instance

/-- Both components of a successful pair result. -/
theorem except_ok_pair_inj {α β : Type} {a a' : α} {b b' : β}
    (h : (Except.ok (a, b) : Except AppErr (α × β)) = Except.ok (a', b')) :
    a' = a ∧ b' = b := by
  have h1 := Except.ok.inj h
  exact ⟨(congrArg Prod.fst h1).symm, (congrArg Prod.snd h1).symm⟩

/-- The pet stored after a successful `claimQuest` is the old pet with the
reward crediting applied. -/
theorem claimQuest_ok_pets (w : World) (owner : String) (qid : Nat)
    (uq : UserQuest) (pet : Pet) (r : UserQuest) (w' : World)
    (hq : findUserQuestById w.userQuests qid = some uq)
    (hpet : findPetByOwner w.pets owner = some pet)
    (hpid : findPetById w.pets pet.pet_id = some pet)
    (hsucc : claimQuest w owner qid = Except.ok (r, w')) :
    findPetById w'.pets pet.pet_id =
      some (applyPetUpdate (claimRewardUpdate pet uq.daily_quest_id.quest_definition_id) pet) := by
  obtain ⟨uq₀, hq₀, hown, hcomp, _, _⟩ := claimQuest_ok_inversion w owner qid r w' hsucc
  rw [hq] at hq₀
  obtain rfl : uq = uq₀ := Option.some.inj hq₀
  have hne : ¬ (uq.owner_id ≠ owner) := not_not_intro hown
  have hncl : ¬ (uq.status = QuestStatus.claimed) := by simp [hcomp]
  have hnex : ¬ (uq.status = QuestStatus.expired) := by simp [hcomp]
  have hncc : ¬ (uq.status ≠ QuestStatus.complete) := not_not_intro hcomp
  have hup := updatePetStats_found w pet.pet_id
    (claimRewardUpdate pet uq.daily_quest_id.quest_definition_id) pet hpid
  simp only [claimQuest, hq, if_neg hne, if_neg hncl, if_neg hnex, if_neg hncc,
    hpet, hup] at hsucc
  split at hsucc
  · exact absurd hsucc (by simp)
  rename_i w₂ hfood
  split at hsucc
  · exact absurd hsucc (by simp)
  rename_i claimedQuest w₃ hequpd
  obtain ⟨hrq, hww⟩ := except_ok_pair_inj hsucc
  have hframe := claimFoodStep_ok_frame _ owner _ w₂ hfood
  have hquestframe := updateUserQuestStatus_snd_frame w₂ qid QuestStatus.claimed
  have hw₃ : w₃ = (updateUserQuestStatus w₂ qid QuestStatus.claimed).2 :=
    (congrArg Prod.snd hequpd).symm
  have hpets' : w'.pets = w.pets.map fun q =>
      if q.pet_id = pet.pet_id
      then applyPetUpdate (claimRewardUpdate pet uq.daily_quest_id.quest_definition_id) q
      else q := by
    rw [hww, hw₃, hquestframe.1, hframe.2]
  rw [hpets']
  exact findPetById_map_update w.pets pet.pet_id _ pet
    (fun q => by simp [applyPetUpdate]) hpid

/-- **C6.** Starting from a pet whose gauges are in [0,100] and coin in
[0,9999], every documented action — `petThePet`, `sleepPet`, `wakePet`,
`completeBathMinigame`, `completeBounceMinigame`, `feedPet` (for a food with
non-negative hunger fill) and the `claimQuest` reward crediting (for
non-negative reward money and hunger recovery) — writes a pet whose gauges
stay in [0,100] and whose coin stays in [0,9999]. -/
theorem gauges_and_coin_stay_in_range (w : World) (now : Int) (owner : String) (p : Pet)
    (hfind : findPetByOwner w.pets owner = some p)
    (hid : findPetById w.pets p.pet_id = some p)
    (hinv : PetInRange p) :
    (∀ p' w', petThePet w now owner = Except.ok (p', w') → PetInRange p') ∧
    (∀ p' w', sleepPet w now owner = Except.ok (p', w') → PetInRange p') ∧
    (∀ p' w', wakePet w now owner = Except.ok (p', w') → PetInRange p') ∧
    (∀ p' w', completeBathMinigame w now owner = Except.ok (p', w') → PetInRange p') ∧
    (∀ p' w', completeBounceMinigame w now owner = Except.ok (p', w') → PetInRange p') ∧
    (∀ fid food p' inv' w', findFoodById w.foods fid = some food →
      0 ≤ food.hunger_fill_amount →
      feedPet w now owner fid = Except.ok (p', inv', w') → PetInRange p') ∧
    (∀ qid uq r w', findUserQuestById w.userQuests qid = some uq →
      0 ≤ uq.daily_quest_id.quest_definition_id.reward_money →
      0 ≤ uq.daily_quest_id.quest_definition_id.hunger_recovery →
      claimQuest w owner qid = Except.ok (r, w') →
      ∀ q, findPetById w'.pets p.pet_id = some q → PetInRange q) := by
  have hsvc : getPetByOwnerIdSvc w owner = (p, w) := by
    simp [getPetByOwnerIdSvc, hfind]
  unfold PetInRange at hinv
  refine ⟨?_, ?_, ?_, ?_, ?_, ?_, ?_⟩
  · intro p' w' hsucc
    have hup := updatePetStats_found w p.pet_id
      { pet_coin := some (min (p.pet_coin + 1) COIN_LIMIT)
        pet_happiness := some (min (p.pet_happiness + 1) GAUGE_LIMIT)
        pet_energy := some (max (p.pet_energy - 1) 0)
        last_interaction_at := some now } p hid
    simp only [petThePet, hsvc, hup] at hsucc
    split at hsucc
    · split at hsucc
      · exact absurd hsucc (by simp)
      · obtain ⟨hp', _⟩ := except_ok_pair_inj hsucc
        rw [hp']
        unfold PetInRange
        simp only [applyPetUpdate, Option.getD]
        unfold GAUGE_LIMIT COIN_LIMIT
        omega
    · obtain ⟨hp', _⟩ := except_ok_pair_inj hsucc
      rw [hp']
      unfold PetInRange
      simp only [applyPetUpdate, Option.getD]
      unfold GAUGE_LIMIT COIN_LIMIT
      omega
  · intro p' w' hsucc
    have hup := updatePetStats_found w p.pet_id
      { sleep_until := some (some (now + 60 * 60 * 1000))
        pet_mood := some Mood.sleepy
        last_interaction_at := some now } p hid
    simp only [sleepPet, hsvc, hup] at hsucc
    split at hsucc
    · exact absurd hsucc (by simp)
    · obtain ⟨hp', _⟩ := except_ok_pair_inj hsucc
      rw [hp']
      unfold PetInRange
      simp only [applyPetUpdate, Option.getD]
      omega
  · intro p' w' hsucc
    have hup := updatePetStats_found w p.pet_id
      { sleep_until := some none
        pet_energy := some GAUGE_LIMIT
        pet_coin := some (min (p.pet_coin + 5) COIN_LIMIT)
        pet_hunger := some (max (p.pet_hunger - 20) 0)
        pet_mood := some (if p.pet_hunger ≤ 10 then Mood.sad else Mood.excited)
        pet_cleanliness := some (max (p.pet_cleanliness - 10) 0)
        last_interaction_at := some now } p hid
    simp only [wakePet, hsvc, hup] at hsucc
    split at hsucc
    · exact absurd hsucc (by simp)
    · split at hsucc
      · exact absurd hsucc (by simp)
      · obtain ⟨hp', _⟩ := except_ok_pair_inj hsucc
        rw [hp']
        unfold PetInRange
        simp only [applyPetUpdate, Option.getD]
        unfold GAUGE_LIMIT COIN_LIMIT
        omega
  · intro p' w' hsucc
    have hup := updatePetStats_found w p.pet_id
      { pet_cleanliness := some GAUGE_LIMIT
        pet_coin := some (min (p.pet_coin + 8) COIN_LIMIT)
        pet_energy := some (max (p.pet_energy - 10) 0)
        last_interaction_at := some now } p hid
    simp only [completeBathMinigame, hsvc, hup] at hsucc
    split at hsucc
    · exact absurd hsucc (by simp)
    · split at hsucc
      · exact absurd hsucc (by simp)
      · obtain ⟨hp', _⟩ := except_ok_pair_inj hsucc
        rw [hp']
        unfold PetInRange
        simp only [applyPetUpdate, Option.getD]
        unfold GAUGE_LIMIT COIN_LIMIT
        omega
  · intro p' w' hsucc
    have hup := updatePetStats_found w p.pet_id
      { pet_coin := some (min (p.pet_coin + 10) COIN_LIMIT)
        pet_happiness := some (min (p.pet_happiness + 15) GAUGE_LIMIT)
        pet_energy := some (max (p.pet_energy - 15) 0)
        pet_cleanliness := some (max (p.pet_cleanliness - 5) 0)
        last_interaction_at := some now } p hid
    simp only [completeBounceMinigame, hsvc, hup] at hsucc
    split at hsucc
    · exact absurd hsucc (by simp)
    · split at hsucc
      · exact absurd hsucc (by simp)
      · obtain ⟨hp', _⟩ := except_ok_pair_inj hsucc
        rw [hp']
        unfold PetInRange
        simp only [applyPetUpdate, Option.getD]
        unfold GAUGE_LIMIT COIN_LIMIT
        omega
  · intro fid food p' inv' w' hfood hfill hsucc
    have hup := updatePetStats_found w p.pet_id (feedPetStatsUpdate now p food) p hid
    have hid₁ := findPetById_map_update w.pets p.pet_id
      (applyPetUpdate (feedPetStatsUpdate now p food)) p
      (fun q => by simp [applyPetUpdate]) hid
    obtain ⟨p₂, w₂, hlev, hl, ha, hh, he, hc, hen, hcl, hhap, hm, hsu2, _, _, _, _⟩ :=
      updatePetLevel_found
        { w with
            pets := w.pets.map fun q =>
              if q.pet_id = p.pet_id then applyPetUpdate (feedPetStatsUpdate now p food) q
              else q
            writes := w.writes + 1 }
        (applyPetUpdate (feedPetStatsUpdate now p food) p)
        (by
          rw [show (applyPetUpdate (feedPetStatsUpdate now p food) p).pet_id = p.pet_id
            from by simp [applyPetUpdate]]
          exact hid₁)
    simp only [feedPet, hfind, hfood, hup, hlev] at hsucc
    split at hsucc
    · exact absurd hsucc (by simp)
    · split at hsucc
      · exact absurd hsucc (by simp)
      · split at hsucc
        · exact absurd hsucc (by simp)
        · split at hsucc
          all_goals
            have h1 := Except.ok.inj hsucc
            have hp' : p₂ = p' := congrArg Prod.fst h1
            rw [← hp']
            unfold PetInRange
            rw [hen, hh, hc, hcl, hhap]
            simp only [applyPetUpdate, feedPetStatsUpdate, Option.getD]
            unfold GAUGE_LIMIT COIN_LIMIT
            omega
  · intro qid uq r w' hq hmoney hhunger hsucc q hqfind
    have hstored := claimQuest_ok_pets w owner qid uq p r w' hq hfind hid hsucc
    rw [hstored] at hqfind
    obtain rfl : _ = q := Option.some.inj hqfind
    unfold PetInRange
    simp only [applyPetUpdate, claimRewardUpdate, Option.getD]
    unfold GAUGE_LIMIT COIN_LIMIT
    omega

/-- A pet at the clamp edges (coin 9999, happiness 100, energy 0) used to
witness C6. -/
def rangeExamplePet : Pet :=
  { pet_id := "p6", owner_id := "o6", name := "Heron", species := "heron"
    level := 1, experience := 0, age_stage := AgeStage.infant
    pet_mood := Mood.excited, pet_coin := 9999, pet_energy := 0
    pet_hunger := 50, pet_cleanliness := 50, pet_happiness := 100
    last_interaction_at := 0, sleep_until := none }

def rangeExampleWorld : World :=
  { pets := [rangeExamplePet], userQuests := [], dailyQuests := [], foods := []
    inventory := [], nextUserQuestId := 0, nextInventoryId := 0, nextPetId := 1
    writes := 0 }

def rangeExampleResult : Pet × World :=
  match petThePet rangeExampleWorld 0 "o6" with
  | Except.ok r => r
  | Except.error _ => (rangeExamplePet, rangeExampleWorld)

/-- Witness for C6: petting the edge-case pet keeps every gauge and the coin
balance within bounds. -/
theorem gauges_and_coin_stay_in_range_witness : PetInRange rangeExampleResult.1 :=
  (gauges_and_coin_stay_in_range rangeExampleWorld 0 "o6" rangeExamplePet
      (by decide) (by decide) (by decide)).1
    rangeExampleResult.1 rangeExampleResult.2 rfl

/-! ## QuestsService: lazy instantiation of daily quests -/

/-- The calendar day of an epoch-millisecond timestamp: models the
`getFullYear/getMonth/getDate` triple that `isToday` compares, for a fixed
time zone. -/
def dayIndex (t : Int) : Int := t / 86400000

/-- `QuestsService.isToday`: same calendar day as now. -/
def isToday (now date : Int) : Bool := decide (dayIndex date = dayIndex now)

/-- `expiresAt.setHours(23, 59, 59, 999)`: the last millisecond of the
current day. -/
def endOfDay (now : Int) : Int := dayIndex now * 86400000 + 86399999

/-- `QuestsService.getTodaysDailyQuests`: today's global quests, plus the
personalized ones when an owner is given. -/
def getTodaysDailyQuests (w : World) (now : Int) (owner_id : Option String) :
    List DailyQuest :=
  let globalQuests := w.dailyQuests.filter fun q => decide (q.scope = QuestScope.global)
  let todaysGlobalQuests := globalQuests.filter fun q => isToday now q.timestamp
  match owner_id with
  | some oid =>
    let personalizedQuests := w.dailyQuests.filter fun q =>
      decide (q.target_user_id = some oid)
    let todaysPersonalizedQuests := personalizedQuests.filter fun q =>
      isToday now q.timestamp
    todaysGlobalQuests ++ todaysPersonalizedQuests
  | none => todaysGlobalQuests

/-- `UserQuestsRepository.createUserQuest`, inserting a row with a fresh
primary key and the arguments the service passes. -/
def createUserQuest (w : World) (owner_id : String) (dq : DailyQuest)
    (expires_at : Int) (now : Int) : UserQuest × World :=
  let nq : UserQuest :=
    { user_quest_id := w.nextUserQuestId, owner_id := owner_id, daily_quest_id := dq
      expires_at := some expires_at, status := QuestStatus.pending
      completed_at := none, created_at := now }
  (nq,
   { w with
      userQuests := w.userQuests ++ [nq]
      nextUserQuestId := w.nextUserQuestId + 1 })

/-- The `for (const dailyQuest of missingDailyQuests)` creation loop of
`getUserQuestsForTheDay`. -/
def createMissingUserQuests (owner_id : String) (now : Int) :
    World → List DailyQuest → List UserQuest × World
  | w, [] => ([], w)
  | w, dq :: rest =>
    let c := createUserQuest w owner_id dq (endOfDay now) now
    let r := createMissingUserQuests owner_id now c.2 rest
    (c.1 :: r.1, r.2)

/-- `QuestsService.getUserQuestsForTheDay`: fetch the owner's quests, keep
today's, lazily create user quests for today's daily quests lacking one,
re-fetch the created rows and return the union. -/
def getUserQuestsForTheDay (w : World) (now : Int) (owner_id : String) :
    List UserQuest × World :=
  let existingUserQuests := w.userQuests.filter fun uq => decide (uq.owner_id = owner_id)
  let todaysUserQuests := existingUserQuests.filter fun uq => isToday now uq.created_at
  let todaysDailyQuests := getTodaysDailyQuests w now (some owner_id)
  let existingDailyQuestIds := todaysUserQuests.map fun uq =>
    uq.daily_quest_id.daily_quest_id
  let missingDailyQuests := todaysDailyQuests.filter fun dq =>
    !(decide (dq.daily_quest_id ∈ existingDailyQuestIds))
  let created := createMissingUserQuests owner_id now w missingDailyQuests
  let fetched := created.1.filterMap fun nq =>
    findUserQuestById created.2.userQuests nq.user_quest_id
  (todaysUserQuests ++ fetched, created.2)

/-! ### Lemmas for C5 -/

/-- Complete characterisation of the creation loop: it appends one pending
user quest per missing daily quest, with consecutive fresh primary keys,
today's expiry, the caller as owner and `now` as creation instant, touching
nothing else. -/
theorem createMissing_spec (owner : String) (now : Int) :
    ∀ l w,
      (createMissingUserQuests owner now w l).2.userQuests
        = w.userQuests ++ (createMissingUserQuests owner now w l).1 ∧
      (createMissingUserQuests owner now w l).2.dailyQuests = w.dailyQuests ∧
      (createMissingUserQuests owner now w l).2.nextUserQuestId
        = w.nextUserQuestId + l.length ∧
      ((createMissingUserQuests owner now w l).1.map fun q => q.daily_quest_id) = l ∧
      ((createMissingUserQuests owner now w l).1.map fun q => q.user_quest_id)
        = List.range' w.nextUserQuestId l.length ∧
      (∀ q ∈ (createMissingUserQuests owner now w l).1,
        q.status = QuestStatus.pending ∧ q.expires_at = some (endOfDay now) ∧
        q.owner_id = owner ∧ q.created_at = now) := by
  intro l
  induction l with
  | nil =>
    intro w
    simp [createMissingUserQuests]
  | cons dq rest ih =>
    intro w
    obtain ⟨h1, h2, h3, h4, h5, h6⟩ :=
      ih { w with
            userQuests := w.userQuests ++
              [{ user_quest_id := w.nextUserQuestId, owner_id := owner
                 daily_quest_id := dq, expires_at := some (endOfDay now)
                 status := QuestStatus.pending, completed_at := none
                 created_at := now }]
            nextUserQuestId := w.nextUserQuestId + 1 }
    simp only [createMissingUserQuests, createUserQuest] at h1 h2 h3 h4 h5 h6 ⊢
    refine ⟨?_, ?_, ?_, ?_, ?_, ?_⟩
    · rw [h1, List.append_assoc]
      simp
    · exact h2
    · rw [h3]; simp; omega
    · simp [h4]
    · simp only [List.map_cons, h5, List.length_cons]
      rw [List.range'_succ]
    · intro q hq
      rcases List.mem_cons.mp hq with hq | hq
      · subst hq
        exact ⟨rfl, rfl, rfl, rfl⟩
      · exact h6 q hq

/-- A lookup skips a prefix that does not contain the key. -/
theorem findUserQuestById_append_right (xs ys : List UserQuest) (id : Nat)
    (hx : ∀ x ∈ xs, ¬ x.user_quest_id = id) :
    findUserQuestById (xs ++ ys) id = findUserQuestById ys id := by
  induction xs with
  | nil => simp
  | cons x rest ih =>
    simp only [List.cons_append, findUserQuestById, if_neg (hx x (by simp))]
    exact ih fun y hy => hx y (by simp [hy])

/-- In a table with distinct primary keys, looking a stored row up by its own
key returns that row. -/
theorem findUserQuestById_self (ys : List UserQuest) (q : UserQuest)
    (hq : q ∈ ys) (hnodup : (ys.map fun r => r.user_quest_id).Nodup) :
    findUserQuestById ys q.user_quest_id = some q := by
  induction ys with
  | nil => simp at hq
  | cons x rest ih =>
    rcases List.mem_cons.mp hq with rfl | hmem
    · simp [findUserQuestById]
    · have hx : ¬ x.user_quest_id = q.user_quest_id := by
        intro he
        have hmm : q.user_quest_id ∈ rest.map fun r => r.user_quest_id :=
          List.mem_map_of_mem _ hmem
        simp only [List.map_cons, List.nodup_cons] at hnodup
        exact hnodup.1 (he ▸ hmm)
      rw [findUserQuestById, if_neg hx]
      refine ih hmem ?_
      simp only [List.map_cons, List.nodup_cons] at hnodup
      exact hnodup.2

/-- Re-fetching each created row returns exactly the created rows. -/
theorem filterMap_find_self (ws : List UserQuest) (cs : List UserQuest)
    (h : ∀ q ∈ cs, findUserQuestById ws q.user_quest_id = some q) :
    (cs.filterMap fun nq => findUserQuestById ws nq.user_quest_id) = cs := by
  induction cs with
  | nil => simp
  | cons c rest ih =>
    simp [List.filterMap_cons, h c (by simp),
      ih fun q hq => h q (List.mem_cons_of_mem _ hq)]

/-- `getTodaysDailyQuests` depends only on the daily-quests table and the
calendar day. -/
theorem getTodaysDailyQuests_congr (w w' : World) (now now' : Int) (o : Option String)
    (hdq : w'.dailyQuests = w.dailyQuests) (hday : dayIndex now' = dayIndex now) :
    getTodaysDailyQuests w' now' o = getTodaysDailyQuests w now o := by
  have hit : ∀ t, isToday now' t = isToday now t := by
    intro t; unfold isToday; rw [hday]
  unfold getTodaysDailyQuests
  rw [hdq]
  simp only [hit]

/-- **C5.** For an owner with `N` eligible daily quests issued today and no
user-quest records for today, the first `getUserQuestsForTheDay` creates
exactly `N` records — each `pending`, expiring at the end of today, one per
eligible daily quest — and returns them; a second call on the same day
creates zero additional records and returns the same list. -/
theorem getUserQuestsForTheDay_lazy_creation (w : World) (now now₂ : Int) (owner : String)
    (hfresh : ∀ uq ∈ w.userQuests, uq.user_quest_id < w.nextUserQuestId)
    (hnotoday : ∀ uq ∈ w.userQuests, uq.owner_id = owner →
      isToday now uq.created_at = false)
    (hday : dayIndex now₂ = dayIndex now) :
    ((getUserQuestsForTheDay w now owner).2.userQuests.length
        = w.userQuests.length + (getTodaysDailyQuests w now (some owner)).length) ∧
    ((getUserQuestsForTheDay w now owner).1.length
        = (getTodaysDailyQuests w now (some owner)).length) ∧
    (∀ q ∈ (getUserQuestsForTheDay w now owner).1,
      q.status = QuestStatus.pending ∧ q.expires_at = some (endOfDay now) ∧
      q.owner_id = owner) ∧
    (((getUserQuestsForTheDay w now owner).1.map fun q =>
        q.daily_quest_id.daily_quest_id)
      = (getTodaysDailyQuests w now (some owner)).map fun dq => dq.daily_quest_id) ∧
    ((getUserQuestsForTheDay (getUserQuestsForTheDay w now owner).2 now₂ owner).2.userQuests
      = (getUserQuestsForTheDay w now owner).2.userQuests) ∧
    ((getUserQuestsForTheDay (getUserQuestsForTheDay w now owner).2 now₂ owner).1
      = (getUserQuestsForTheDay w now owner).1) := by
  obtain ⟨hcu, hcd, hcn, hcmap, hcids, hcall⟩ :=
    createMissing_spec owner now (getTodaysDailyQuests w now (some owner)) w
  have htoday0 : ((w.userQuests.filter fun uq => decide (uq.owner_id = owner)).filter
      fun uq => isToday now uq.created_at) = [] := by
    rw [List.filter_eq_nil_iff]
    intro uq hmem
    obtain ⟨hin, hown⟩ := List.mem_filter.mp hmem
    rw [hnotoday uq hin (of_decide_eq_true hown)]
    simp
  have hmiss : ((getTodaysDailyQuests w now (some owner)).filter fun dq =>
      !(decide (dq.daily_quest_id ∈ ([] : List String))))
      = getTodaysDailyQuests w now (some owner) :=
    List.filter_eq_self.mpr (by intro a ha; simp)
  have hfind_each : ∀ q ∈
      (createMissingUserQuests owner now w (getTodaysDailyQuests w now (some owner))).1,
      findUserQuestById
        (createMissingUserQuests owner now w
          (getTodaysDailyQuests w now (some owner))).2.userQuests
        q.user_quest_id = some q := by
    intro q hq
    have hidmem : q.user_quest_id ∈
        (createMissingUserQuests owner now w
          (getTodaysDailyQuests w now (some owner))).1.map fun r => r.user_quest_id :=
      List.mem_map_of_mem _ hq
    rw [hcids] at hidmem
    have hge : w.nextUserQuestId ≤ q.user_quest_id := (List.mem_range'_1.mp hidmem).1
    rw [hcu]
    rw [findUserQuestById_append_right w.userQuests _ q.user_quest_id
      fun x hx => by have := hfresh x hx; omega]
    exact findUserQuestById_self _ q hq (by rw [hcids]; exact List.nodup_range' _ _)
  have hfetch := filterMap_find_self
    (createMissingUserQuests owner now w
      (getTodaysDailyQuests w now (some owner))).2.userQuests
    (createMissingUserQuests owner now w (getTodaysDailyQuests w now (some owner))).1
    hfind_each
  have hfirst : getUserQuestsForTheDay w now owner =
      ((createMissingUserQuests owner now w (getTodaysDailyQuests w now (some owner))).1,
       (createMissingUserQuests owner now w (getTodaysDailyQuests w now (some owner))).2) := by
    simp only [getUserQuestsForTheDay, htoday0, List.map_nil, hmiss, hfetch,
      List.nil_append]
  have hlen1 : (createMissingUserQuests owner now w
      (getTodaysDailyQuests w now (some owner))).1.length
      = (getTodaysDailyQuests w now (some owner)).length := by
    have := congrArg List.length hcmap
    simpa using this
  -- the second call
  have hofilter : ((createMissingUserQuests owner now w
      (getTodaysDailyQuests w now (some owner))).2.userQuests.filter fun uq =>
        decide (uq.owner_id = owner))
      = (w.userQuests.filter fun uq => decide (uq.owner_id = owner)) ++
        (createMissingUserQuests owner now w (getTodaysDailyQuests w now (some owner))).1 := by
    rw [hcu, List.filter_append]
    congr 1
    exact List.filter_eq_self.mpr fun q hq => decide_eq_true (hcall q hq).2.2.1
  have htoday2 : (((w.userQuests.filter fun uq => decide (uq.owner_id = owner)) ++
        (createMissingUserQuests owner now w
          (getTodaysDailyQuests w now (some owner))).1).filter fun uq =>
          isToday now₂ uq.created_at)
      = (createMissingUserQuests owner now w (getTodaysDailyQuests w now (some owner))).1 := by
    rw [List.filter_append]
    have hpre : ((w.userQuests.filter fun uq => decide (uq.owner_id = owner)).filter
        fun uq => isToday now₂ uq.created_at) = [] := by
      rw [List.filter_eq_nil_iff]
      intro uq hmem
      obtain ⟨hin, hown⟩ := List.mem_filter.mp hmem
      have h0 := hnotoday uq hin (of_decide_eq_true hown)
      unfold isToday at h0 ⊢
      rw [hday]
      rw [h0]
      simp
    have hsuf : ((createMissingUserQuests owner now w
        (getTodaysDailyQuests w now (some owner))).1.filter fun uq =>
          isToday now₂ uq.created_at)
        = (createMissingUserQuests owner now w
            (getTodaysDailyQuests w now (some owner))).1 := by
      refine List.filter_eq_self.mpr fun q hq => ?_
      rw [(hcall q hq).2.2.2]
      unfold isToday
      rw [hday]
      simp
    rw [hpre, hsuf, List.nil_append]
  have hmapids : ((createMissingUserQuests owner now w
      (getTodaysDailyQuests w now (some owner))).1.map fun uq =>
        uq.daily_quest_id.daily_quest_id)
      = (getTodaysDailyQuests w now (some owner)).map fun dq => dq.daily_quest_id := by
    have : (fun uq : UserQuest => uq.daily_quest_id.daily_quest_id)
        = (fun dq : DailyQuest => dq.daily_quest_id) ∘ fun uq : UserQuest =>
            uq.daily_quest_id := rfl
    rw [this, ← List.map_map, hcmap]
  have hT2 : getTodaysDailyQuests
      (createMissingUserQuests owner now w
        (getTodaysDailyQuests w now (some owner))).2 now₂ (some owner)
      = getTodaysDailyQuests w now (some owner) :=
    getTodaysDailyQuests_congr w _ now now₂ (some owner) hcd hday
  have hmiss2 : ((getTodaysDailyQuests w now (some owner)).filter fun dq =>
      !(decide (dq.daily_quest_id ∈ (getTodaysDailyQuests w now
        (some owner)).map fun dq => dq.daily_quest_id))) = [] := by
    rw [List.filter_eq_nil_iff]
    intro dq hdq
    have : dq.daily_quest_id ∈ (getTodaysDailyQuests w now
        (some owner)).map fun dq => dq.daily_quest_id := List.mem_map_of_mem _ hdq
    simp [this]
  have hsecond : getUserQuestsForTheDay
      (createMissingUserQuests owner now w
        (getTodaysDailyQuests w now (some owner))).2 now₂ owner =
      ((createMissingUserQuests owner now w (getTodaysDailyQuests w now (some owner))).1,
       (createMissingUserQuests owner now w (getTodaysDailyQuests w now (some owner))).2) := by
    simp only [getUserQuestsForTheDay, hofilter, htoday2, hT2, hmapids, hmiss2,
      createMissingUserQuests, List.filterMap_nil, List.append_nil]
  refine ⟨?_, ?_, ?_, ?_, ?_, ?_⟩
  · rw [hfirst]
    simp only [hcu, List.length_append]
    rw [hlen1]
  · rw [hfirst]
    exact hlen1
  · rw [hfirst]
    intro q hq
    obtain ⟨h1, h2, h3, _⟩ := hcall q hq
    exact ⟨h1, h2, h3⟩
  · rw [hfirst]
    exact hmapids
  · rw [hfirst, hsecond]
  · rw [hfirst, hsecond]

/-- Concrete data witnessing C5: one global daily quest issued today and no
user quests. -/
def c5QuestDef : QuestDefinition :=
  { quest_definition_id := "qd3", name := "breathe", reward_money := 2
    reward_experience := 10, hunger_recovery := 5, reward_food_id := none
    reward_type := "none", is_active := true }

def c5DailyQuest : DailyQuest :=
  { daily_quest_id := "dq3", quest_definition_id := c5QuestDef
    scope := QuestScope.global, target_user_id := none, timestamp := 0 }

def c5World : World :=
  { pets := [], userQuests := [], dailyQuests := [c5DailyQuest], foods := []
    inventory := [], nextUserQuestId := 0, nextInventoryId := 0, nextPetId := 0
    writes := 0 }

/-- Witness for C5: the first call creates one row for the one eligible daily
quest; the immediate second call creates none and returns the same list. -/
theorem getUserQuestsForTheDay_lazy_creation_witness :
    ((getUserQuestsForTheDay c5World 0 "o7").2.userQuests.length
        = c5World.userQuests.length + (getTodaysDailyQuests c5World 0 (some "o7")).length) ∧
    ((getUserQuestsForTheDay c5World 0 "o7").1.length
        = (getTodaysDailyQuests c5World 0 (some "o7")).length) ∧
    ((getUserQuestsForTheDay (getUserQuestsForTheDay c5World 0 "o7").2 0 "o7").2.userQuests
        = (getUserQuestsForTheDay c5World 0 "o7").2.userQuests) ∧
    ((getUserQuestsForTheDay (getUserQuestsForTheDay c5World 0 "o7").2 0 "o7").1
        = (getUserQuestsForTheDay c5World 0 "o7").1) := by
  have h := getUserQuestsForTheDay_lazy_creation c5World 0 0 "o7"
    (by intro uq hq; simp [c5World] at hq) (by intro uq hq; simp [c5World] at hq) rfl
  exact ⟨h.1, h.2.1, h.2.2.2.2.1, h.2.2.2.2.2⟩

/-! ## GratitudeJarService: cursor pagination -/

/-- Row of the `gratitude_entries` table (`gratitudeEntry.model.ts`).
Identifiers and timestamps are modelled as naturals ordered as the database
orders the respective columns; the encrypted content plays no role in
pagination and is omitted. -/
structure GratitudeEntry where
  gratitude_id : Nat
  user_id : String
  created_at : Nat
  is_deleted : Bool
deriving DecidableEq, Repr

/-- The base `where` clause of `findByUserAfterId`: the user's non-deleted
entries. -/
def matchesUser (user : String) (e : GratitudeEntry) : Bool :=
  decide (e.user_id = user) && !e.is_deleted

/-- The keyset condition `created_at < last.created_at OR (created_at =
last.created_at AND gratitude_id < last.gratitude_id)`. -/
def afterKey (last e : GratitudeEntry) : Bool :=
  decide (e.created_at < last.created_at) ||
    (decide (e.created_at = last.created_at) &&
      decide (e.gratitude_id < last.gratitude_id))

def findGratitudeById : List GratitudeEntry → Nat → Option GratitudeEntry
  | [], _ => none
  | e :: es, i => if e.gratitude_id = i then some e else findGratitudeById es i

/-- `GratitudeEntryRepository.findByUserAfterId` against a table whose rows
are listed in the query's result order (`created_at DESC, gratitude_id
DESC`): resolve the cursor row by bare id (no user or deletion filter, as in
the source), then take `limit` rows satisfying the `where` clause. -/
def findByUserAfterId (rows : List GratitudeEntry) (user : String)
    (lastEntryId : Option Nat) (limit : Nat) : List GratitudeEntry :=
  match lastEntryId with
  | none => (rows.filter (matchesUser user)).take limit
  | some lid =>
    match findGratitudeById rows lid with
    | none => (rows.filter (matchesUser user)).take limit
    | some last =>
      (rows.filter fun e => matchesUser user e && afterKey last e).take limit

/-- Return shape of the paginated `getEntriesByUser`. -/
structure PaginatedEntries where
  entries : List GratitudeEntry
  hasMore : Bool
  nextCursor : Option Nat
deriving DecidableEq, Repr

/-- `GratitudeJarService.getEntriesByUser` (paginated): fetch `limit + 1`
rows, report `hasMore` when more than `limit` came back, trim to `limit`,
and expose the last returned entry's id as the cursor. -/
def getEntriesByUser (rows : List GratitudeEntry) (userId : String)
    (limit : Nat) (lastEntryId : Option Nat) : PaginatedEntries :=
  let fetchLimit := limit + 1
  let entries := findByUserAfterId rows userId lastEntryId fetchLimit
  let hasMore := decide (entries.length > limit)
  let slicedEntries := if hasMore then entries.take limit else entries
  { entries := slicedEntries
    hasMore := hasMore
    nextCursor :=
      if hasMore then (slicedEntries.getLast?).map fun e => e.gratitude_id
      else none }

/-! ### Order lemmas for C9 -/

/-- `a` lies strictly before `b` in the result order
(`created_at DESC, gratitude_id DESC`). -/
def KeyBefore (a b : GratitudeEntry) : Prop :=
  b.created_at < a.created_at ∨
    (b.created_at = a.created_at ∧ b.gratitude_id < a.gratitude_id)

theorem afterKey_iff (last e : GratitudeEntry) :
    afterKey last e = true ↔ KeyBefore last e := by
  unfold afterKey KeyBefore
  simp

theorem afterKey_eq_false_of (x p : GratitudeEntry) (h : ¬ KeyBefore x p) :
    afterKey x p = false := by
  cases hb : afterKey x p
  · rfl
  · exact absurd ((afterKey_iff x p).mp hb) h

theorem KeyBefore_asymm (a b : GratitudeEntry) (h : KeyBefore a b) :
    ¬ KeyBefore b a := by
  unfold KeyBefore at h ⊢
  omega

/-- Filtering a strictly descending list by "after `x`" keeps exactly the
suffix strictly after `x`. -/
theorem filter_afterKey_of_sorted (P S : List GratitudeEntry) (x : GratitudeEntry)
    (hP : ∀ p ∈ P, KeyBefore p x) (hS : ∀ s ∈ S, KeyBefore x s) :
    ((P ++ x :: S).filter fun e => afterKey x e) = S := by
  induction P with
  | nil =>
    have hxx : afterKey x x = false :=
      afterKey_eq_false_of x x (by unfold KeyBefore; omega)
    have hSS : (S.filter fun e => afterKey x e) = S :=
      List.filter_eq_self.mpr fun s hs => (afterKey_iff x s).mpr (hS s hs)
    simp [List.filter_cons, hxx, hSS]
  | cons p P ih =>
    have hnp : afterKey x p = false :=
      afterKey_eq_false_of x p (KeyBefore_asymm p x (hP p (by simp)))
    simp only [List.cons_append, List.filter_cons, hnp, Bool.false_eq_true,
      if_false]
    exact ih fun q hq => hP q (by simp [hq])

/-- In a table with distinct ids, the cursor lookup returns the stored row. -/
theorem findGratitudeById_self (rows : List GratitudeEntry) (x : GratitudeEntry)
    (hx : x ∈ rows) (hids : (rows.map fun e => e.gratitude_id).Nodup) :
    findGratitudeById rows x.gratitude_id = some x := by
  induction rows with
  | nil => simp at hx
  | cons r rest ih =>
    rcases List.mem_cons.mp hx with rfl | hmem
    · simp [findGratitudeById]
    · have hr : ¬ r.gratitude_id = x.gratitude_id := by
        intro he
        have hmm : x.gratitude_id ∈ rest.map fun e => e.gratitude_id :=
          List.mem_map_of_mem _ hmem
        simp only [List.map_cons, List.nodup_cons] at hids
        exact hids.1 (he ▸ hmm)
      rw [findGratitudeById, if_neg hr]
      refine ih hmem ?_
      simp only [List.map_cons, List.nodup_cons] at hids
      exact hids.2

/-- Conjunctive filters factor into sequential filters. -/
theorem filter_and_eq_filter_filter (rows : List GratitudeEntry)
    (p q : GratitudeEntry → Bool) :
    rows.filter (fun e => p e && q e) = (rows.filter p).filter q := by
  induction rows with
  | nil => rfl
  | cons r rs ih =>
    by_cases hp : p r <;> by_cases hq : q r <;>
      simp [List.filter_cons, hp, hq, ih]

/-- Splitting the filtered result set at the cursor element: the rows after
the `k`-th element of the (sorted) result set are exactly its `(k+1)`-drop. -/
theorem filter_after_eq_drop (F : List GratitudeEntry) (k : Nat) (x : GratitudeEntry)
    (hsorted : List.Pairwise KeyBefore F)
    (hk : F.drop k = x :: F.drop (k + 1)) :
    (F.filter fun e => afterKey x e) = F.drop (k + 1) := by
  conv_lhs => rw [← List.take_append_drop k F, hk]
  have hdecomp : List.Pairwise KeyBefore (F.take k ++ x :: F.drop (k + 1)) := by
    rw [← hk, List.take_append_drop]
    exact hsorted
  rw [List.pairwise_append] at hdecomp
  obtain ⟨hPp, hxS, hcross⟩ := hdecomp
  rw [List.pairwise_cons] at hxS
  exact filter_afterKey_of_sorted (F.take k) (F.drop (k + 1)) x
    (fun p hp => hcross p hp x (by simp)) hxS.1

/-- The last element of `l.take (n+1)`. -/
theorem getLast?_take_succ {α : Type} (F : List α) (n : Nat) (h : n < F.length) :
    (F.take (n + 1)).getLast? = some F[n] := by
  rw [List.take_succ, List.getElem?_eq_getElem h, Option.toList_some,
    List.getLast?_concat]

/-- The repository query one cursor step in: following the cursor placed on
the `k`-th entry of the result set fetches from its `(k+1)`-drop. -/
theorem findByUserAfterId_cursor (rows : List GratitudeEntry) (user : String)
    (k lim : Nat)
    (hsort : List.Pairwise KeyBefore rows)
    (hids : (rows.map fun e => e.gratitude_id).Nodup)
    (hk : k < (rows.filter (matchesUser user)).length) :
    findByUserAfterId rows user
        (some ((rows.filter (matchesUser user))[k].gratitude_id)) lim
      = (((rows.filter (matchesUser user)).drop (k + 1)).take lim) := by
  have hmemF : (rows.filter (matchesUser user))[k] ∈ rows.filter (matchesUser user) := by
    exact List.get_mem _ _ hk
  have hmem : (rows.filter (matchesUser user))[k] ∈ rows :=
    (List.mem_filter.mp hmemF).1
  have hfind : findGratitudeById rows
      ((rows.filter (matchesUser user))[k].gratitude_id)
      = some ((rows.filter (matchesUser user))[k]) :=
    findGratitudeById_self rows _ hmem hids
  have hFsort : List.Pairwise KeyBefore (rows.filter (matchesUser user)) :=
    List.Pairwise.sublist (List.filter_sublist rows) hsort
  have hdropk : (rows.filter (matchesUser user)).drop k
      = (rows.filter (matchesUser user))[k] :: (rows.filter (matchesUser user)).drop (k + 1) :=
    List.drop_eq_getElem_cons hk
  simp only [findByUserAfterId, hfind]
  rw [filter_and_eq_filter_filter rows (matchesUser user)
    (fun e => afterKey ((rows.filter (matchesUser user))[k]) e)]
  rw [filter_after_eq_drop _ k _ hFsort hdropk]

/-- Nested takes with an inner larger bound collapse to the outer take. -/
theorem take_take_of_le {α : Type} (l : List α) : ∀ m n : Nat, m ≤ n →
    (l.take n).take m = l.take m := by
  induction l with
  | nil =>
    intro m n h
    simp
  | cons x xs ih =>
    intro m n h
    cases m with
    | zero => simp
    | succ m' =>
      cases n with
      | zero => omega
      | succ n' =>
        simp only [List.take_succ_cons]
        rw [ih m' n' (by omega)]

/-- **C9.** `getEntriesByUser` fetches `limit + 1` rows, returns at most
`limit`, reports `hasMore` exactly when more than `limit` rows came back,
sets `nextCursor` to the last returned entry's id when `hasMore` and leaves
it unset otherwise; and for a user with 25 entries and `limit = 10`, three
successive cursor-following calls return 10, 10 and 5 entries with
`hasMore` false only on the last page. -/
theorem getEntriesByUser_pagination (rows : List GratitudeEntry) (user : String)
    (limit : Nat) (lastEntryId : Option Nat)
    (hsort : List.Pairwise KeyBefore rows)
    (hids : (rows.map fun e => e.gratitude_id).Nodup) :
    ((getEntriesByUser rows user limit lastEntryId).entries.length ≤ limit) ∧
    ((getEntriesByUser rows user limit lastEntryId).hasMore
      = decide ((findByUserAfterId rows user lastEntryId (limit + 1)).length > limit)) ∧
    ((getEntriesByUser rows user limit lastEntryId).hasMore = true →
      (getEntriesByUser rows user limit lastEntryId).nextCursor
        = ((getEntriesByUser rows user limit lastEntryId).entries.getLast?).map
            fun e => e.gratitude_id) ∧
    ((getEntriesByUser rows user limit lastEntryId).hasMore = false →
      (getEntriesByUser rows user limit lastEntryId).nextCursor = none) ∧
    ((rows.filter (matchesUser user)).length = 25 →
      (getEntriesByUser rows user 10 none).entries.length = 10 ∧
      (getEntriesByUser rows user 10 none).hasMore = true ∧
      (getEntriesByUser rows user 10
        (getEntriesByUser rows user 10 none).nextCursor).entries.length = 10 ∧
      (getEntriesByUser rows user 10
        (getEntriesByUser rows user 10 none).nextCursor).hasMore = true ∧
      (getEntriesByUser rows user 10
        (getEntriesByUser rows user 10
          (getEntriesByUser rows user 10 none).nextCursor).nextCursor).entries.length = 5 ∧
      (getEntriesByUser rows user 10
        (getEntriesByUser rows user 10
          (getEntriesByUser rows user 10 none).nextCursor).nextCursor).hasMore = false) := by
  refine ⟨?_, ?_, ?_, ?_, ?_⟩
  · by_cases hm : ((findByUserAfterId rows user lastEntryId (limit + 1)).length > limit)
    · have he : (getEntriesByUser rows user limit lastEntryId).entries
          = (findByUserAfterId rows user lastEntryId (limit + 1)).take limit := by
        unfold getEntriesByUser
        simp only [decide_eq_true hm, if_true]
      rw [he]
      exact List.length_take_le _ _
    · have he : (getEntriesByUser rows user limit lastEntryId).entries
          = findByUserAfterId rows user lastEntryId (limit + 1) := by
        unfold getEntriesByUser
        simp only [decide_eq_false hm]
        rw [if_neg Bool.false_ne_true]
      rw [he]
      omega
  · rfl
  · intro hmore
    unfold getEntriesByUser at hmore ⊢
    simp only [] at hmore
    simp [hmore]
  · intro hmore
    unfold getEntriesByUser at hmore ⊢
    simp only [] at hmore
    simp [hmore]
  · intro h25
    have hten : (10 : Nat) + 1 = 11 := rfl
    have hm1 : ((findByUserAfterId rows user none 11).length > 10) := by
      show ((rows.filter (matchesUser user)).take 11).length > 10
      rw [List.length_take]
      omega
    have hp1e : (getEntriesByUser rows user 10 none).entries
        = (rows.filter (matchesUser user)).take 10 := by
      unfold getEntriesByUser
      simp only [hten, decide_eq_true hm1, if_true]
      show ((rows.filter (matchesUser user)).take 11).take 10 = _
      rw [take_take_of_le _ 10 11 (by omega)]
    have hp1h : (getEntriesByUser rows user 10 none).hasMore = true := by
      show decide ((findByUserAfterId rows user none (10 + 1)).length > 10) = true
      rw [hten]
      exact decide_eq_true hm1
    have hp1c : (getEntriesByUser rows user 10 none).nextCursor
        = some ((rows.filter (matchesUser user))[9].gratitude_id) := by
      unfold getEntriesByUser
      simp only [hten, decide_eq_true hm1, if_true]
      rw [show ((findByUserAfterId rows user none 11).take 10)
          = (rows.filter (matchesUser user)).take 10 from by
        show ((rows.filter (matchesUser user)).take 11).take 10 = _
        rw [take_take_of_le _ 10 11 (by omega)]]
      rw [getLast?_take_succ _ 9 (by omega)]
      rfl
    have hfetch2 := findByUserAfterId_cursor rows user 9 11 hsort hids (by omega)
    have hm2 : ((findByUserAfterId rows user
        (some ((rows.filter (matchesUser user))[9].gratitude_id)) 11).length > 10) := by
      rw [hfetch2, List.length_take, List.length_drop]
      omega
    have hp2e : (getEntriesByUser rows user 10
        (some ((rows.filter (matchesUser user))[9].gratitude_id))).entries
        = ((rows.filter (matchesUser user)).drop 10).take 10 := by
      unfold getEntriesByUser
      simp only [hten, decide_eq_true hm2, if_true]
      rw [hfetch2, take_take_of_le _ 10 11 (by omega)]
    have hp2h : (getEntriesByUser rows user 10
        (some ((rows.filter (matchesUser user))[9].gratitude_id))).hasMore = true := by
      show decide ((findByUserAfterId rows user _ (10 + 1)).length > 10) = true
      rw [hten]
      exact decide_eq_true hm2
    have hlen10 : ((rows.filter (matchesUser user)).drop 10).length = 15 := by
      rw [List.length_drop]
      omega
    have hdropidx : ((rows.filter (matchesUser user)).drop 10)[9]
        = (rows.filter (matchesUser user))[19] := by
      rw [List.getElem_drop]
    have hp2c : (getEntriesByUser rows user 10
        (some ((rows.filter (matchesUser user))[9].gratitude_id))).nextCursor
        = some ((rows.filter (matchesUser user))[19].gratitude_id) := by
      unfold getEntriesByUser
      simp only [hten, decide_eq_true hm2, if_true]
      rw [hfetch2, take_take_of_le _ 10 11 (by omega)]
      rw [getLast?_take_succ _ 9 (by rw [List.length_drop]; omega)]
      rw [hdropidx]
      rfl
    have hfetch3 := findByUserAfterId_cursor rows user 19 11 hsort hids (by omega)
    have hlen3 : (findByUserAfterId rows user
        (some ((rows.filter (matchesUser user))[19].gratitude_id)) 11).length = 5 := by
      rw [hfetch3, List.length_take, List.length_drop]
      omega
    have hm3 : ¬ ((findByUserAfterId rows user
        (some ((rows.filter (matchesUser user))[19].gratitude_id)) 11).length > 10) := by
      rw [hlen3]
      omega
    have hp3e : (getEntriesByUser rows user 10
        (some ((rows.filter (matchesUser user))[19].gratitude_id))).entries.length = 5 := by
      unfold getEntriesByUser
      simp only [hten, decide_eq_false hm3]
      rw [if_neg Bool.false_ne_true]
      exact hlen3
    have hp3h : (getEntriesByUser rows user 10
        (some ((rows.filter (matchesUser user))[19].gratitude_id))).hasMore = false := by
      unfold getEntriesByUser
      simp only [hten]
      exact decide_eq_false hm3
    refine ⟨?_, hp1h, ?_, ?_, ?_, ?_⟩
    · rw [hp1e, List.length_take]
      omega
    · rw [hp1c, hp2e, List.length_take, List.length_drop]
      omega
    · rw [hp1c]
      exact hp2h
    · rw [hp1c, hp2c]
      exact hp3e
    · rw [hp1c, hp2c]
      exact hp3h

instance (a b : GratitudeEntry) : Decidable (KeyBefore a b) := by
  unfold KeyBefore; infer_instance

/-- 25 non-deleted entries of one user, listed in strictly descending
result order. -/
def c9Rows : List GratitudeEntry :=
  (List.range 25).map fun i =>
    { gratitude_id := 25 - i, user_id := "u9", created_at := 25 - i
      is_deleted := false }

/-- Witness for C9: the 25-entry, limit-10 pagination scenario on concrete
data. -/
theorem getEntriesByUser_pagination_witness :
    ((getEntriesByUser c9Rows "u9" 10 none).entries.length ≤ 10) ∧
    ((getEntriesByUser c9Rows "u9" 10 none).entries.length = 10 ∧
      (getEntriesByUser c9Rows "u9" 10 none).hasMore = true ∧
      (getEntriesByUser c9Rows "u9" 10
        (getEntriesByUser c9Rows "u9" 10 none).nextCursor).entries.length = 10 ∧
      (getEntriesByUser c9Rows "u9" 10
        (getEntriesByUser c9Rows "u9" 10 none).nextCursor).hasMore = true ∧
      (getEntriesByUser c9Rows "u9" 10
        (getEntriesByUser c9Rows "u9" 10
          (getEntriesByUser c9Rows "u9" 10 none).nextCursor).nextCursor).entries.length = 5 ∧
      (getEntriesByUser c9Rows "u9" 10
        (getEntriesByUser c9Rows "u9" 10
          (getEntriesByUser c9Rows "u9" 10 none).nextCursor).nextCursor).hasMore = false) := by
  have h := getEntriesByUser_pagination c9Rows "u9" 10 none (by decide) (by decide)
  exact ⟨h.1, h.2.2.2.2 (by decide)⟩

/-! ## MoodCheckInService -/

/-- Row of the `mood_check_ins` table (`moodCheckIn.model.ts`). -/
structure MoodCheckIn where
  check_in_id : Nat
  user_id : String
  mood_1 : String
  mood_2 : Option String
  mood_3 : Option String
  checked_in_at : Int
deriving DecidableEq, Repr

/-- The mood check-in store. -/
structure MoodStore where
  checkIns : List MoodCheckIn
  nextCheckInId : Nat
deriving Repr

/-- `MoodCheckInRepository.getCheckInForToday`: the Postgres `Between`
window `[start of UTC day, end of UTC day]` is exactly "same UTC day",
modelled by equality of day indices. -/
def findCheckInToday : List MoodCheckIn → Int → String → Option MoodCheckIn
  | [], _, _ => none
  | c :: cs, now, u =>
    if c.user_id = u ∧ dayIndex c.checked_in_at = dayIndex now then some c
    else findCheckInToday cs now u

/-- `MoodCheckInService.getCheckInForToday`: whether a check-in exists
today. -/
def getCheckInForToday (s : MoodStore) (now : Int) (user_id : String) : Bool :=
  match findCheckInToday s.checkIns now user_id with
  | none => false
  | some _ => true

/-- `MoodCheckInRepository.createCheckIn`; the `checked_in_at` column
defaults to the current timestamp. -/
def createCheckInRepo (s : MoodStore) (now : Int) (user_id mood_1 : String)
    (mood_2 mood_3 : Option String) : MoodCheckIn × MoodStore :=
  let c : MoodCheckIn :=
    { check_in_id := s.nextCheckInId, user_id := user_id, mood_1 := mood_1
      mood_2 := mood_2, mood_3 := mood_3, checked_in_at := now }
  (c, { checkIns := s.checkIns ++ [c], nextCheckInId := s.nextCheckInId + 1 })

/-- `MoodCheckInService.createCheckIn`: refuse with `CHECKIN_EXISTS` when a
check-in already exists today, otherwise create one. -/
def createCheckIn (s : MoodStore) (now : Int) (user_id mood_1 : String)
    (mood_2 mood_3 : Option String) : Except AppErr (MoodCheckIn × MoodStore) :=
  if getCheckInForToday s now user_id then
    Except.error AppErr.CHECKIN_EXISTS
  else
    Except.ok (createCheckInRepo s now user_id mood_1 mood_2 mood_3)

/-- The service's boolean is the existence of a same-day check-in of the
user. -/
theorem findCheckInToday_isSome_iff (cs : List MoodCheckIn) (now : Int) (u : String) :
    (findCheckInToday cs now u).isSome = true ↔
      ∃ c ∈ cs, c.user_id = u ∧ dayIndex c.checked_in_at = dayIndex now := by
  induction cs with
  | nil => simp [findCheckInToday]
  | cons c cs ih =>
    by_cases hc : c.user_id = u ∧ dayIndex c.checked_in_at = dayIndex now
    · simp [findCheckInToday, hc]
    · rw [findCheckInToday, if_neg hc, ih]
      constructor
      · rintro ⟨x, hx, hp⟩
        exact ⟨x, List.mem_cons_of_mem _ hx, hp⟩
      · rintro ⟨x, hx, hp⟩
        rcases List.mem_cons.mp hx with rfl | hx
        · exact absurd hp hc
        · exact ⟨x, hx, hp⟩

theorem getCheckInForToday_eq_isSome (s : MoodStore) (now : Int) (u : String) :
    getCheckInForToday s now u = (findCheckInToday s.checkIns now u).isSome := by
  unfold getCheckInForToday
  cases findCheckInToday s.checkIns now u <;> rfl

/-- **C10.** Mood check-ins are at most one per user per calendar day: when
the user already has a check-in today `createCheckIn` fails with
`CHECKIN_EXISTS` and creates no record; otherwise it creates exactly one
check-in carrying the given moods. -/
theorem createCheckIn_once_per_day (s : MoodStore) (now : Int)
    (user mood_1 : String) (mood_2 mood_3 : Option String) :
    (getCheckInForToday s now user = true ↔
      ∃ c ∈ s.checkIns, c.user_id = user ∧
        dayIndex c.checked_in_at = dayIndex now) ∧
    (getCheckInForToday s now user = true →
      createCheckIn s now user mood_1 mood_2 mood_3
        = Except.error AppErr.CHECKIN_EXISTS) ∧
    (getCheckInForToday s now user = false →
      ∃ c s2, createCheckIn s now user mood_1 mood_2 mood_3 = Except.ok (c, s2) ∧
        c.user_id = user ∧ c.mood_1 = mood_1 ∧ c.mood_2 = mood_2 ∧
        c.mood_3 = mood_3 ∧ c.checked_in_at = now ∧
        s2.checkIns = s.checkIns ++ [c]) := by
  refine ⟨?_, ?_, ?_⟩
  · rw [getCheckInForToday_eq_isSome]
    exact findCheckInToday_isSome_iff s.checkIns now user
  · intro h
    unfold createCheckIn
    rw [h]
    rfl
  · intro h
    unfold createCheckIn
    rw [h]
    exact ⟨_, _, rfl, rfl, rfl, rfl, rfl, rfl, rfl⟩

def c10Store : MoodStore := { checkIns := [], nextCheckInId := 0 }

/-- Witness for C10: a first check-in of the day is created with the given
moods. -/
theorem createCheckIn_once_per_day_witness :
    ∃ c s2, createCheckIn c10Store 0 "u10" "happy" (some "calm") none
        = Except.ok (c, s2) ∧
      c.user_id = "u10" ∧ c.mood_1 = "happy" ∧ c.mood_2 = some "calm" ∧
      c.mood_3 = none ∧ c.checked_in_at = 0 ∧
      s2.checkIns = c10Store.checkIns ++ [c] :=
  (createCheckIn_once_per_day c10Store 0 "u10" "happy" (some "calm") none).2.2
    (by decide)

end Heron
